import Mathlib

/-!
# websocket-demo/server.js: message routing of `WebSocketServer`

A shallow embedding of the class `WebSocketServer` of `src/websocket-demo/server.js`.

* JavaScript values are the inductive `JSVal`; property reads go through `getProp`, which
  throws a `TypeError` on `undefined` and `null` as the language does.
* The methods run in the monad `JS`: a state transformer over `Server` whose outcome is
  either a value or a thrown error, the state reached at the throw being kept.
* What the program takes from its runtime (`JSON.parse`, `uuidv4`, `Date.now`, `Math.random`,
  the multiplication of doubles) is the parameter `Runtime`.
* `ws.send(JSON.stringify(message))` is recorded in `Server.sent` as the pair of the socket
  and the value handed to `JSON.stringify`; the text sent is `jsonStringify` of that value
  (`Server.wire`), and what a receiver reads back from it is `jsonRoundTrip`.
-/

namespace WebSocketDemo

/-! ## JavaScript values -/

/-- Numbers of the runtime, which are IEEE-754 doubles: a finite double is
`(-1)^neg * mant * 2^exp` (so `mant = 0` is one of the two zeros). Only the truth value of a
number is ever inspected by the program. -/
inductive JSNum where
  | finite (neg : Bool) (mant : Nat) (exp : Int)
  | infinite (neg : Bool)
  | nan
  deriving DecidableEq, Repr

/-- The double of a natural number literal such as `1001`. -/
def JSNum.ofNat (n : Nat) : JSNum := .finite false n 0

/-- The double of an integer, as returned by `Date.now()`. -/
def JSNum.ofInt (i : Int) : JSNum := .finite (decide (i < 0)) i.natAbs 0

/-- ToBoolean on numbers: `+0`, `-0` and `NaN` are falsy. -/
def JSNum.toBoolean : JSNum → Bool
  | .finite _ mant _ => mant != 0
  | .infinite _ => true
  | .nan => false

/-- The values the program handles: what `JSON.parse` returns, the object literals the
program builds, and `undefined` for a property that is absent. An object is the list of its
own properties; a read takes the first entry of a key. -/
inductive JSVal where
  | undefined
  | null
  | bool (b : Bool)
  | num (n : JSNum)
  | str (s : String)
  | arr (items : List JSVal)
  | obj (fields : List (String × JSVal))

/-- What a `throw` carries: the `SyntaxError` of `JSON.parse` and the `TypeError` of a
property read on `undefined` or `null`. -/
inductive JSError where
  | syntaxError
  | typeError
  deriving DecidableEq, Repr

/-- ToBoolean: `undefined`, `null`, `false`, the zeros, `NaN` and the empty string are
falsy, everything else (every array and object included) is truthy. -/
def JSVal.toBoolean : JSVal → Bool
  | .undefined => false
  | .null => false
  | .bool b => b
  | .num n => n.toBoolean
  | .str s => s != ""
  | .arr _ => true
  | .obj _ => true

/-- The own property `key` of an object given by its property list. -/
def lookupField (key : String) : List (String × JSVal) → JSVal
  | [] => .undefined
  | (k, v) :: rest => if k = key then v else lookupField key rest

/-- The property read `v.key`, for the keys the program reads (`type`, `id`, `timestamp`,
`payload`, `command`, `event`, `name`): none of them is on a built-in prototype, so the read
gives the own property of an object and `undefined` on every other value, and throws on
`undefined` and `null`. -/
def getProp (v : JSVal) (key : String) : Except JSError JSVal :=
  match v with
  | .undefined => .error .typeError
  | .null => .error .typeError
  | .obj fields => .ok (lookupField key fields)
  | _ => .ok .undefined

/-- The operator `lhs && rhs`: the left value when it is falsy, otherwise the right operand,
which is evaluated only then. -/
def logicalAnd (lhs : Except JSError JSVal) (rhs : Unit → Except JSError JSVal) :
    Except JSError JSVal :=
  match lhs with
  | .error e => .error e
  | .ok v => if v.toBoolean then rhs () else .ok v

/-- The comparison `v === 'literal'` of a `switch` whose cases are string literals. -/
def strictEqualsStr (v : JSVal) (literal : String) : Bool :=
  match v with
  | .str s => s == literal
  | _ => false

/-! ## The built-in `JSON.stringify` and the texts it writes -/

/-- A JSON text by its structure (layout aside). A number literal is kept as the double it
denotes when the text is read: a literal beyond the range of the doubles, such as `1e999`,
denotes `Infinity`. A string literal is kept as the string it denotes. -/
inductive JsonText where
  | null
  | bool (b : Bool)
  | number (n : JSNum)
  | string (s : String)
  | array (items : List JsonText)
  | object (members : List (String × JsonText))

/-- The text `JSON.stringify` writes for a number: for a finite double the literal that
denotes it, `0` for either zero, and `null` for `Infinity`, `-Infinity` and `NaN`. -/
def numberText : JSNum → JsonText
  | .finite neg mant exp => .number (.finite (neg && mant != 0) mant exp)
  | .infinite _ => .null
  | .nan => .null

mutual
/-- The built-in `JSON.stringify(v)` on the values of `JSVal`; `none` is the result
`undefined`, which is no text. -/
def jsonStringify : JSVal → Option JsonText
  | .undefined => none
  | .null => some .null
  | .bool b => some (.bool b)
  | .num n => some (numberText n)
  | .str s => some (.string s)
  | .arr items => some (.array (stringifyItems items))
  | .obj fields => some (.object (stringifyFields fields))
/-- The elements of an array as `JSON.stringify` writes them: `null` for `undefined`. -/
def stringifyItems : List JSVal → List JsonText
  | [] => []
  | v :: rest =>
    (match jsonStringify v with
      | some t => t
      | none => .null) :: stringifyItems rest
/-- The members of an object as `JSON.stringify` writes them: a property whose value is
`undefined` is left out. -/
def stringifyFields : List (String × JSVal) → List (String × JsonText)
  | [] => []
  | (k, v) :: rest =>
    match jsonStringify v with
    | some t => (k, t) :: stringifyFields rest
    | none => stringifyFields rest
end

/-- The assignment `object[key] = v` of a data property: an existing property keeps its
place and takes the value, a new one comes last. -/
def setField (key : String) (v : JSVal) : List (String × JSVal) → List (String × JSVal)
  | [] => [(key, v)]
  | (k, w) :: rest => if k = key then (k, v) :: rest else (k, w) :: setField key v rest

mutual
/-- The built-in `JSON.parse` on a well-formed text, given by its structure. -/
def jsonParseText : JsonText → JSVal
  | .null => .null
  | .bool b => .bool b
  | .number n => .num n
  | .string s => .str s
  | .array items => .arr (parseItems items)
  | .object members => .obj (parseMembers members [])
/-- The elements of an array text, read in order. -/
def parseItems : List JsonText → List JSVal
  | [] => []
  | t :: rest => jsonParseText t :: parseItems rest
/-- The members of an object text, assigned in order to the object read so far: of two
members of one name the later gives the value. -/
def parseMembers : List (String × JsonText) → List (String × JSVal) → List (String × JSVal)
  | [], acc => acc
  | (k, t) :: rest, acc => parseMembers rest (setField k (jsonParseText t) acc)
end

/-! ## Connections, the runtime and the server state -/

/-- A socket `ws`, by identity. -/
abbrev Conn := Nat

/-- The values of `ws.readyState`. -/
inductive ReadyState where
  | CONNECTING
  | OPEN
  | CLOSING
  | CLOSED
  deriving DecidableEq, Repr

/-- What the program calls and does not define: `JSON.parse` (`none` is a thrown
`SyntaxError`), and the successive results of `uuidv4()`, `Date.now()` and `Math.random()`
indexed by the number of such calls made so far, and the product of two doubles. -/
structure Runtime where
  jsonParse : String → Option JSVal
  uuidv4 : Nat → String
  dateNow : Nat → Int
  mathRandom : Nat → JSNum
  mul : JSNum → JSNum → JSNum

/-- The state: `this.clients` (a `Set`, in insertion order), the `readyState` of every socket,
the log of the `ws.send` calls, and the number of runtime calls made so far. -/
structure Server where
  clients : List Conn
  readyState : Conn → ReadyState
  sent : List (Conn × JSVal)
  clock : Nat

/-- The call `ws.send(JSON.stringify(message))`. The log keeps the socket and the argument
`message` of `JSON.stringify`; the text that is sent is `jsonStringify message`, which
`Server.wire` gives for the whole log. -/
def Server.send (s : Server) (ws : Conn) (message : JSVal) : Server :=
  { s with sent := s.sent ++ [(ws, message)] }

/-- The texts sent, in order: for each call of the log, the socket and
`JSON.stringify(message)`. -/
def Server.wire (s : Server) : List (Conn × Option JsonText) :=
  s.sent.map (fun p => (p.1, jsonStringify p.2))

/-- Statements of the program: from a state to a value or a thrown error, and the state
reached. -/
def JS (α : Type) : Type := Server → Except JSError α × Server

/-- Sequencing: a throw skips the rest. -/
def JS.bind {α β : Type} (m : JS α) (f : α → JS β) : JS β := fun s =>
  match m s with
  | (.ok a, s') => f a s'
  | (.error e, s') => (.error e, s')

instance : Monad JS where
  pure a := fun s => (.ok a, s)
  bind := JS.bind

/-- An expression without effect on the state. -/
def JS.eval {α : Type} (e : Except JSError α) : JS α := fun s => (e, s)

/-- The statement `try { body } catch (error) { handler }`. -/
def JS.tryCatch {α : Type} (body : JS α) (handler : JSError → JS α) : JS α := fun s =>
  match body s with
  | (.ok a, s') => (.ok a, s')
  | (.error e, s') => handler e s'

/-- The call `uuidv4()`. -/
def uuidv4 (rt : Runtime) : JS JSVal := fun s =>
  (.ok (.str (rt.uuidv4 s.clock)), { s with clock := s.clock + 1 })

/-- The call `Date.now()`. -/
def dateNow (rt : Runtime) : JS JSVal := fun s =>
  (.ok (.num (JSNum.ofInt (rt.dateNow s.clock))), { s with clock := s.clock + 1 })

/-- The call `Math.random()`. -/
def mathRandom (rt : Runtime) : JS JSNum := fun s =>
  (.ok (rt.mathRandom s.clock), { s with clock := s.clock + 1 })

/-! ## The methods of `WebSocketServer` -/

/-- Method `validateMessage`: the value of
`message.type && message.id && message.timestamp && message.payload`. -/
def validateMessage (message : JSVal) : Except JSError JSVal :=
  logicalAnd
    (logicalAnd
      (logicalAnd (getProp message "type") (fun _ => getProp message "id"))
      (fun _ => getProp message "timestamp"))
    (fun _ => getProp message "payload")

/-- Method `sendMessage`: sends when the socket is open, does nothing otherwise. -/
def sendMessage (ws : Conn) (message : JSVal) : JS Unit := fun s =>
  if s.readyState ws = .OPEN then (.ok (), s.send ws message) else (.ok (), s)

/-- Method `sendEvent`. -/
def sendEvent (rt : Runtime) (ws : Conn) (eventName data : JSVal) : JS Unit := do
  let id ← uuidv4 rt
  let timestamp ← dateNow rt
  sendMessage ws (.obj [("type", .str "event"), ("id", id), ("timestamp", timestamp),
    ("payload", .obj [("event", .obj [("name", eventName), ("data", data)])])])

/-- Method `sendResponse`; the parameter `requestId` is not read by the body. -/
def sendResponse (rt : Runtime) (ws : Conn) (_requestId data : JSVal) : JS Unit := do
  let id ← uuidv4 rt
  let timestamp ← dateNow rt
  sendMessage ws (.obj [("type", .str "response"), ("id", id), ("timestamp", timestamp),
    ("payload", .obj [("response", .obj [("success", .bool true), ("data", data)])])])

/-- Method `sendError`. -/
def sendError (rt : Runtime) (ws : Conn) (errorMessage errorCode : JSVal) : JS Unit := do
  let id ← uuidv4 rt
  let timestamp ← dateNow rt
  sendMessage ws (.obj [("type", .str "error"), ("id", id), ("timestamp", timestamp),
    ("payload", .obj [("error", .obj [("code", errorCode), ("message", errorMessage)])])])

/-- Method `broadcast`: one send to every registered socket that is not `exclude` and is
open, in the order of the set. -/
def broadcast (message : JSVal) (exclude : Option Conn) : JS Unit := fun s =>
  (.ok (), s.clients.foldl
    (fun acc client =>
      if some client ≠ exclude ∧ acc.readyState client = .OPEN then acc.send client message
      else acc)
    s)

/-- Method `handleCommand`. The read `command.name` of the `console.log` line throws when
`payload.command` is `undefined` or `null`. -/
def handleCommand (rt : Runtime) (ws : Conn) (message : JSVal) : JS Unit := do
  let payload ← JS.eval (getProp message "payload")
  let command ← JS.eval (getProp payload "command")
  let _logged ← JS.eval (getProp command "name")
  let name ← JS.eval (getProp command "name")
  if strictEqualsStr name "getData" then do
    let requestId ← JS.eval (getProp message "id")
    let r1 ← mathRandom rt
    let r2 ← mathRandom rt
    sendResponse rt ws requestId
      (.obj [("data", .obj [("temperature", .num (rt.mul r1 (JSNum.ofNat 30))),
                            ("humidity", .num (rt.mul r2 (JSNum.ofNat 100)))])])
  else
    sendError rt ws (.str "Unknown command") (.num (JSNum.ofNat 2001))

/-- Method `handleEvent`. The read `event.name` of the `console.log` line throws when
`payload.event` is `undefined` or `null`. -/
def handleEvent (ws : Conn) (message : JSVal) : JS Unit := do
  let payload ← JS.eval (getProp message "payload")
  let event ← JS.eval (getProp payload "event")
  let _logged ← JS.eval (getProp event "name")
  broadcast message (some ws)

/-- Method `handleResponse`: it only logs. -/
def handleResponse (_ws : Conn) (_message : JSVal) : JS Unit :=
  pure ()

/-- Method `handleMessage`. -/
def handleMessage (rt : Runtime) (ws : Conn) (message : JSVal) : JS Unit := do
  let valid ← JS.eval (validateMessage message)
  if !valid.toBoolean then
    sendError rt ws (.str "Missing required message fields") (.num (JSNum.ofNat 1002))
  else do
    let type ← JS.eval (getProp message "type")
    if strictEqualsStr type "command" then handleCommand rt ws message
    else if strictEqualsStr type "event" then handleEvent ws message
    else if strictEqualsStr type "response" then handleResponse ws message
    else sendError rt ws (.str "Invalid message type") (.num (JSNum.ofNat 1003))

/-- The handler of the `message` event of a socket. -/
def onMessage (rt : Runtime) (ws : Conn) (data : String) : JS Unit :=
  JS.tryCatch
    (do
      let message ← JS.eval (match rt.jsonParse data with
        | some v => Except.ok v
        | none => Except.error JSError.syntaxError)
      handleMessage rt ws message)
    (fun _error => sendError rt ws (.str "Invalid message format") (.num (JSNum.ofNat 1001)))

/-- The call `this.clients.add(ws)` of a `Set`: nothing changes when `ws` is a member. -/
def clientsAdd (ws : Conn) : JS Unit := fun s =>
  (.ok (), { s with clients := if ws ∈ s.clients then s.clients else s.clients ++ [ws] })

/-- The call `this.clients.delete(ws)` of a `Set`. -/
def clientsDelete (ws : Conn) : JS Unit := fun s =>
  (.ok (), { s with clients := s.clients.filter (fun c => c ≠ ws) })

/-- The handler of the `close` event of a socket. -/
def onClose (ws : Conn) : JS Unit :=
  clientsDelete ws

/-- The handler of the `connection` event: the socket is registered, then the welcome
event is sent to it. -/
def onConnection (rt : Runtime) (ws : Conn) : JS Unit := do
  clientsAdd ws
  let now ← dateNow rt
  sendEvent rt ws (.str "connectionStatus")
    (.obj [("status", .str "connected"), ("timestamp", now)])

/-! ## The events of the transport -/

/-- What the transport delivers to the server: a socket is accepted, a frame arrives on a
socket, a socket is closed. -/
inductive Event where
  | connection (ws : Conn)
  | message (ws : Conn) (data : String)
  | close (ws : Conn)
  deriving DecidableEq, Repr

/-- One event: the transport sets the state of the socket (`OPEN` when it emits `connection`,
`CLOSED` when it emits `close`) and the handler registered by `start` runs. -/
def step (rt : Runtime) (e : Event) (s : Server) : Server :=
  match e with
  | .connection ws =>
    (onConnection rt ws { s with readyState := Function.update s.readyState ws .OPEN }).2
  | .message ws data => (onMessage rt ws data s).2
  | .close ws =>
    (onClose ws { s with readyState := Function.update s.readyState ws .CLOSED }).2

/-- A sequence of events, handled one after the other. -/
def run (rt : Runtime) (events : List Event) (s : Server) : Server :=
  events.foldl (fun acc e => step rt e acc) s

/-! ## Vocabulary of the statements -/

/-- The read `v.k1.k2...` along a path of keys. -/
def getPath (v : JSVal) : List String → Except JSError JSVal
  | [] => .ok v
  | key :: rest =>
    match getProp v key with
    | .ok w => getPath w rest
    | .error e => .error e

/-- A message is valid when `validateMessage` returns a truthy value, which is when
`handleMessage` goes past its first test. -/
def isValid (message : JSVal) : Bool :=
  match validateMessage message with
  | .ok v => v.toBoolean
  | .error _ => false

/-- An envelope of type `error` carrying the given code and message. -/
def IsErrorEnvelope (v : JSVal) (code : Nat) (text : String) : Prop :=
  getProp v "type" = .ok (.str "error") ∧
  getPath v ["payload", "error", "code"] = .ok (.num (JSNum.ofNat code)) ∧
  getPath v ["payload", "error", "message"] = .ok (.str text)

/-- An envelope of type `response` whose `payload.response.success` is `true`. -/
def IsSuccessResponse (v : JSVal) : Prop :=
  getProp v "type" = .ok (.str "response") ∧
  getPath v ["payload", "response", "success"] = .ok (.bool true)

/-- The envelope built by `sendError`, from the values of `uuidv4()` and `Date.now()`. -/
def errorEnvelope (rt : Runtime) (clock : Nat) (errorMessage errorCode : JSVal) : JSVal :=
  .obj [("type", .str "error"), ("id", .str (rt.uuidv4 clock)),
    ("timestamp", .num (JSNum.ofInt (rt.dateNow (clock + 1)))),
    ("payload", .obj [("error", .obj [("code", errorCode), ("message", errorMessage)])])]

/-- The envelope built by `sendEvent`, from the values of `uuidv4()` and `Date.now()`. -/
def eventEnvelope (rt : Runtime) (clock : Nat) (eventName data : JSVal) : JSVal :=
  .obj [("type", .str "event"), ("id", .str (rt.uuidv4 clock)),
    ("timestamp", .num (JSNum.ofInt (rt.dateNow (clock + 1)))),
    ("payload", .obj [("event", .obj [("name", eventName), ("data", data)])])]

/-- The welcome sent by the connection handler entered with the given count of runtime
calls: `Date.now()` for the data, then `uuidv4()` and `Date.now()` of `sendEvent`. -/
def welcomeEnvelope (rt : Runtime) (clock : Nat) : JSVal :=
  eventEnvelope rt (clock + 1) (.str "connectionStatus")
    (.obj [("status", .str "connected"),
           ("timestamp", .num (JSNum.ofInt (rt.dateNow clock)))])

/-- The envelope built by `sendResponse`, from the values of `uuidv4()` and `Date.now()`. -/
def responseEnvelope (rt : Runtime) (clock : Nat) (data : JSVal) : JSVal :=
  .obj [("type", .str "response"), ("id", .str (rt.uuidv4 clock)),
    ("timestamp", .num (JSNum.ofInt (rt.dateNow (clock + 1)))),
    ("payload", .obj [("response", .obj [("success", .bool true), ("data", data)])])]

/-- The result object of the command `getData`, from the two values of `Math.random()`. -/
def getDataResult (rt : Runtime) (clock : Nat) : JSVal :=
  .obj [("data", .obj
    [("temperature", .num (rt.mul (rt.mathRandom clock) (JSNum.ofNat 30))),
     ("humidity", .num (rt.mul (rt.mathRandom (clock + 1)) (JSNum.ofNat 100)))])]

/-- What `JSON.parse` reads from the text `JSON.stringify` writes for `v`. -/
def jsonRoundTrip (v : JSVal) : Option JSVal :=
  (jsonStringify v).map jsonParseText

/-- A number that its JSON text gives back: finite, and not the negative zero. -/
def JSNum.jsonStable : JSNum → Bool
  | .finite neg mant _ => !(neg && mant == 0)
  | .infinite _ => false
  | .nan => false

mutual
/-- A value that JSON text can carry: it holds no `undefined`, its numbers are finite and
not the negative zero, and the properties of each of its objects have distinct names. -/
def JSVal.jsonStable : JSVal → Bool
  | .undefined => false
  | .null => true
  | .bool _ => true
  | .num n => n.jsonStable
  | .str _ => true
  | .arr items => itemsStable items
  | .obj fields => fieldsStable fields
/-- Every element of an array is a value that JSON text can carry. -/
def itemsStable : List JSVal → Bool
  | [] => true
  | v :: rest => v.jsonStable && itemsStable rest
/-- Every property of an object is a value that JSON text can carry, and no name occurs
twice. -/
def fieldsStable : List (String × JSVal) → Bool
  | [] => true
  | (k, v) :: rest => v.jsonStable && !(rest.any (fun p => p.1 == k)) && fieldsStable rest
end

/-- The sockets a `broadcast` sends to: registered, not the excluded one, and open. -/
def recipients (s : Server) (exclude : Option Conn) : List Conn :=
  s.clients.filter (fun c => some c ≠ exclude ∧ s.readyState c = .OPEN)

/-! ## Concrete inputs -/

/-- A runtime: `JSON.parse` knows the text `null`, identifiers are `uuid-0`, `uuid-1`, ...,
the clock reads 1700000000000 ms. -/
def rt0 : Runtime where
  jsonParse := fun data => if data = "null" then some .null else none
  uuidv4 := fun n => "uuid-" ++ toString n
  dateNow := fun _ => 1700000000000
  mathRandom := fun _ => .finite false 1 (-1)
  mul := fun _ y => y

/-- A server with sockets 1, 2 and 3 registered, socket 3 being closed. -/
def s0 : Server where
  clients := [1, 2, 3]
  readyState := fun c => if c = 3 then .CLOSED else .OPEN
  sent := []
  clock := 0

/-- A server whose only socket is 1. -/
def s1 : Server where
  clients := [1]
  readyState := fun _ => .OPEN
  sent := []
  clock := 0

/-- An envelope of type `event`. -/
def eventMsg : JSVal :=
  .obj [("type", .str "event"), ("id", .str "e-1"), ("timestamp", .num (JSNum.ofNat 5)),
    ("payload", .obj [("event", .obj [("name", .str "ping")])])]

/-- An envelope with its four fields present and non-null whose timestamp is 0. -/
def zeroTimestampMsg : JSVal :=
  .obj [("type", .str "event"), ("id", .str "e-1"), ("timestamp", .num (JSNum.ofInt 0)),
    ("payload", .obj [("event", .obj [("name", .str "ping")])])]

/-- An object without the field `id`. -/
def noIdMsg : JSVal :=
  .obj [("type", .str "event"), ("timestamp", .num (JSNum.ofNat 5)), ("payload", .obj [])]

/-- An envelope whose type is the string `error`. -/
def errorTypeMsg : JSVal :=
  .obj [("type", .str "error"), ("id", .str "x-1"), ("timestamp", .num (JSNum.ofNat 5)),
    ("payload", .obj [("error", .obj [("code", .num (JSNum.ofNat 1)), ("message", .str "m")])])]

/-- A command envelope naming the command `reboot`, which is not registered. -/
def rebootMsg : JSVal :=
  .obj [("type", .str "command"), ("id", .str "req-0"), ("timestamp", .num (JSNum.ofNat 5)),
    ("payload", .obj [("command", .obj [("name", .str "reboot")])])]

/-- A command envelope with id `req-1` naming the command `getData`. -/
def getDataMsg : JSVal :=
  .obj [("type", .str "command"), ("id", .str "req-1"), ("timestamp", .num (JSNum.ofNat 5)),
    ("payload", .obj [("command", .obj [("name", .str "getData")])])]

/-- A response envelope, as a client may send one. -/
def responseMsg : JSVal :=
  .obj [("type", .str "response"), ("id", .str "r-1"), ("timestamp", .num (JSNum.ofNat 5)),
    ("payload", .obj [("response", .obj [("success", .bool true)])])]

/-- A valid command envelope whose payload has no `command` record. -/
def noCommandMsg : JSVal :=
  .obj [("type", .str "command"), ("id", .str "c-1"), ("timestamp", .num (JSNum.ofNat 5)),
    ("payload", .obj [("other", .num (JSNum.ofNat 1))])]

/-- A runtime whose `JSON.parse` decodes every frame to `noCommandMsg`. -/
def rt1 : Runtime :=
  { rt0 with jsonParse := fun _ => some noCommandMsg }

/-- A runtime whose `JSON.parse` decodes every frame to `eventMsg`. -/
def rt2 : Runtime :=
  { rt0 with jsonParse := fun _ => some eventMsg }

/-- A server with sockets 1, 2 and 3 registered and open. -/
def sOpen : Server where
  clients := [1, 2, 3]
  readyState := fun _ => .OPEN
  sent := []
  clock := 0

/-- The text of a frame: an event envelope whose timestamp is written `1e999`, a literal
beyond the range of the doubles. -/
def overflowText : JsonText :=
  .object [("type", .string "event"), ("id", .string "e-9"),
    ("timestamp", .number (.infinite false)),
    ("payload", .object [("event", .object [("name", .string "ping")])])]

/-- The envelope `JSON.parse` reads from `overflowText`: its timestamp is `Infinity`. -/
def overflowMsg : JSVal :=
  .obj [("type", .str "event"), ("id", .str "e-9"), ("timestamp", .num (.infinite false)),
    ("payload", .obj [("event", .obj [("name", .str "ping")])])]

/-- The envelope read back from the text `JSON.stringify` writes for `overflowMsg`: its
timestamp is `null`. -/
def overflowDelivered : JSVal :=
  .obj [("type", .str "event"), ("id", .str "e-9"), ("timestamp", .null),
    ("payload", .obj [("event", .obj [("name", .str "ping")])])]

/-- A runtime whose `JSON.parse` decodes every frame to `overflowMsg`. -/
def rt3 : Runtime :=
  { rt0 with jsonParse := fun _ => some overflowMsg }

/-! ## Lemmas on the monad and the senders -/

theorem JS.bind_apply {α β : Type} (m : JS α) (f : α → JS β) (s : Server) :
    (m >>= f) s = match m s with
      | (.ok a, s') => f a s'
      | (.error e, s') => (.error e, s') := rfl

theorem JS.pure_apply {α : Type} (a : α) (s : Server) :
    (pure a : JS α) s = (.ok a, s) := rfl

theorem JS.eval_apply {α : Type} (e : Except JSError α) (s : Server) :
    JS.eval e s = (e, s) := rfl

theorem JS.eval_ok_bind {α β : Type} (a : α) (f : α → JS β) (s : Server) :
    (JS.eval (.ok a) >>= f) s = f a s := rfl

theorem JS.eval_error_bind {α β : Type} (e : JSError) (f : α → JS β) (s : Server) :
    (JS.eval (.error e : Except JSError α) >>= f) s = (.error e, s) := rfl

theorem sendError_apply (rt : Runtime) (ws : Conn) (msg code : JSVal) (s : Server) :
    sendError rt ws msg code s =
      (.ok (), if s.readyState ws = .OPEN then
          { s with sent := s.sent ++ [(ws, errorEnvelope rt s.clock msg code)],
                   clock := s.clock + 2 }
        else { s with clock := s.clock + 2 }) := by
  simp only [sendError, JS.bind_apply, uuidv4, dateNow, sendMessage, Server.send, errorEnvelope]
  split <;> rfl

theorem sendResponse_apply (rt : Runtime) (ws : Conn) (rid data : JSVal) (s : Server) :
    sendResponse rt ws rid data s =
      (.ok (), if s.readyState ws = .OPEN then
          { s with sent := s.sent ++ [(ws, responseEnvelope rt s.clock data)],
                   clock := s.clock + 2 }
        else { s with clock := s.clock + 2 }) := by
  simp only [sendResponse, JS.bind_apply, uuidv4, dateNow, sendMessage, Server.send,
    responseEnvelope]
  split <;> rfl

/-- The three ways `handleCommand` ends: a throw before any effect, the error 2001, or the
response to `getData` after the two calls of `Math.random()`. -/
theorem handleCommand_cases (rt : Runtime) (ws : Conn) (m : JSVal) (s : Server) :
    (∃ e, getPath m ["payload", "command", "name"] = .error e ∧
      handleCommand rt ws m s = (.error e, s)) ∨
    ((∃ n, getPath m ["payload", "command", "name"] = .ok n ∧ n ≠ .str "getData") ∧
      handleCommand rt ws m s =
        sendError rt ws (.str "Unknown command") (.num (JSNum.ofNat 2001)) s) ∨
    (getPath m ["payload", "command", "name"] = .ok (.str "getData") ∧
      ∃ rid, getProp m "id" = .ok rid ∧ handleCommand rt ws m s =
        sendResponse rt ws rid (getDataResult rt s.clock) { s with clock := s.clock + 2 }) := by
  unfold handleCommand
  cases hp : getProp m "payload" with
  | error e => exact Or.inl ⟨e, by simp only [getPath, hp], by rw [JS.eval_error_bind]⟩
  | ok p =>
    rw [JS.eval_ok_bind]
    cases hc : getProp p "command" with
    | error e => exact Or.inl ⟨e, by simp only [getPath, hp, hc], by rw [JS.eval_error_bind]⟩
    | ok c =>
      rw [JS.eval_ok_bind]
      cases hn : getProp c "name" with
      | error e =>
        exact Or.inl ⟨e, by simp only [getPath, hp, hc, hn], by rw [JS.eval_error_bind]⟩
      | ok n =>
        rw [JS.eval_ok_bind, JS.eval_ok_bind]
        have hpath : getPath m ["payload", "command", "name"] = .ok n := by
          simp only [getPath, hp, hc, hn]
        rw [hpath]
        by_cases hg : strictEqualsStr n "getData" = true
        · have hn' : n = .str "getData" := by
            cases n <;> simp_all [strictEqualsStr]
          subst hn'
          cases hid : getProp m "id" with
          | error e =>
            cases m <;> simp [getProp] at hp hid
          | ok rid =>
            refine Or.inr (Or.inr ⟨rfl, rid, rfl, ?_⟩)
            rw [if_pos hg, JS.eval_ok_bind]
            rfl
        · have hn' : n ≠ .str "getData" := by
            rintro rfl
            exact hg (by decide)
          refine Or.inr (Or.inl ⟨⟨n, rfl, hn'⟩, ?_⟩)
          rw [if_neg hg]

/-- The two ways `handleEvent` ends: a throw before any effect, or the broadcast. -/
theorem handleEvent_cases (ws : Conn) (m : JSVal) (s : Server) :
    (∃ e, getPath m ["payload", "event", "name"] = .error e ∧
      handleEvent ws m s = (.error e, s)) ∨
    ((∃ n, getPath m ["payload", "event", "name"] = .ok n) ∧
      handleEvent ws m s = broadcast m (some ws) s) := by
  unfold handleEvent
  cases hp : getProp m "payload" with
  | error e => exact Or.inl ⟨e, by simp only [getPath, hp], by rw [JS.eval_error_bind]⟩
  | ok p =>
    rw [JS.eval_ok_bind]
    cases hc : getProp p "event" with
    | error e => exact Or.inl ⟨e, by simp only [getPath, hp, hc], by rw [JS.eval_error_bind]⟩
    | ok c =>
      rw [JS.eval_ok_bind]
      cases hn : getProp c "name" with
      | error e =>
        exact Or.inl ⟨e, by simp only [getPath, hp, hc, hn], by rw [JS.eval_error_bind]⟩
      | ok n =>
        rw [JS.eval_ok_bind]
        exact Or.inr ⟨⟨n, by simp only [getPath, hp, hc, hn]⟩, rfl⟩

theorem strictEqualsStr_iff (v : JSVal) (literal : String) :
    strictEqualsStr v literal = true ↔ v = .str literal := by
  cases v <;> simp [strictEqualsStr]

theorem isValid_iff (m : JSVal) :
    isValid m = true ↔ ∃ fields, m = .obj fields ∧
      (lookupField "type" fields).toBoolean = true ∧
      (lookupField "id" fields).toBoolean = true ∧
      (lookupField "timestamp" fields).toBoolean = true ∧
      (lookupField "payload" fields).toBoolean = true := by
  cases m with
  | obj fields =>
    simp only [isValid, validateMessage, logicalAnd, getProp, JSVal.obj.injEq, exists_eq_left']
    by_cases h1 : (lookupField "type" fields).toBoolean = true <;>
    by_cases h2 : (lookupField "id" fields).toBoolean = true <;>
    by_cases h3 : (lookupField "timestamp" fields).toBoolean = true <;>
    simp [h1, h2, h3]
  | _ => simp [isValid, validateMessage, logicalAnd, getProp, JSVal.toBoolean]

theorem broadcast_foldl (message : JSVal) (exclude : Option Conn) (l : List Conn)
    (s : Server) :
    l.foldl (fun acc client =>
        if some client ≠ exclude ∧ acc.readyState client = .OPEN then acc.send client message
        else acc) s =
      { s with
        sent := s.sent ++ List.map (fun c => (c, message))
          (l.filter (fun c => some c ≠ exclude ∧ s.readyState c = .OPEN)) } := by
  induction l generalizing s with
  | nil => simp
  | cons c l ih =>
    rw [List.foldl_cons, ih]
    by_cases h : some c ≠ exclude ∧ s.readyState c = .OPEN
    · simp [h, Server.send, List.filter_cons]
    · simp [h, List.filter_cons]

theorem broadcast_apply (message : JSVal) (exclude : Option Conn) (s : Server) :
    broadcast message exclude s =
      (.ok (), { s with
        sent := s.sent ++ List.map (fun c => (c, message)) (recipients s exclude) }) := by
  simp only [broadcast, broadcast_foldl, recipients]

/-- Past validation, `handleMessage` is its `switch` on `message.type`. -/
theorem handleMessage_valid (rt : Runtime) (ws : Conn) (fields : List (String × JSVal))
    (s : Server) (hv : isValid (.obj fields) = true) :
    handleMessage rt ws (.obj fields) s =
      if strictEqualsStr (lookupField "type" fields) "command" then
        handleCommand rt ws (.obj fields) s
      else if strictEqualsStr (lookupField "type" fields) "event" then
        handleEvent ws (.obj fields) s
      else if strictEqualsStr (lookupField "type" fields) "response" then
        handleResponse ws (.obj fields) s
      else sendError rt ws (.str "Invalid message type") (.num (JSNum.ofNat 1003)) s := by
  unfold isValid at hv
  cases hval : validateMessage (.obj fields) with
  | error e => simp [hval] at hv
  | ok v =>
    simp only [hval] at hv
    simp only [handleMessage, JS.bind_apply, JS.eval_apply, hval, hv, getProp, Bool.not_true,
      Bool.false_eq_true, if_false]
    split_ifs <;> rfl

theorem handleEvent_apply (ws : Conn) (fields : List (String × JSVal)) (s : Server)
    (evFields : List (String × JSVal))
    (hevent : getPath (.obj fields) ["payload", "event"] = .ok (.obj evFields)) :
    handleEvent ws (.obj fields) s = broadcast (.obj fields) (some ws) s := by
  simp only [getPath, getProp] at hevent
  simp only [handleEvent, JS.bind_apply, JS.eval_apply, getProp]
  cases hp : lookupField "payload" fields <;> simp only [hp] at hevent ⊢ <;>
    first
    | (simp only [Except.ok.injEq] at hevent; simp [hevent])
    | simp at hevent

theorem isErrorEnvelope_errorEnvelope (rt : Runtime) (clock code : Nat) (text : String) :
    IsErrorEnvelope (errorEnvelope rt clock (.str text) (.num (JSNum.ofNat code))) code text :=
  ⟨rfl, rfl, rfl⟩

theorem sendError_open (rt : Runtime) (ws : Conn) (msg code : JSVal) (s : Server)
    (hopen : s.readyState ws = .OPEN) :
    sendError rt ws msg code s =
      (.ok (), { s with sent := s.sent ++ [(ws, errorEnvelope rt s.clock msg code)],
                        clock := s.clock + 2 }) := by
  rw [sendError_apply, if_pos hopen]

theorem validateMessage_ok (v : JSVal) (hnull : v ≠ .null) (hundef : v ≠ .undefined) :
    ∃ r, validateMessage v = .ok r := by
  cases v with
  | null => exact absurd rfl hnull
  | undefined => exact absurd rfl hundef
  | obj fields =>
    simp only [validateMessage, logicalAnd, getProp]
    by_cases h1 : (lookupField "type" fields).toBoolean = true <;>
    by_cases h2 : (lookupField "id" fields).toBoolean = true <;>
    by_cases h3 : (lookupField "timestamp" fields).toBoolean = true <;>
    simp [h1, h2, h3]
  | _ => exact ⟨.undefined, rfl⟩

theorem handleMessage_invalid (rt : Runtime) (ws : Conn) (m r : JSVal) (s : Server)
    (h : validateMessage m = .ok r) (hr : r.toBoolean = false) :
    handleMessage rt ws m s =
      sendError rt ws (.str "Missing required message fields") (.num (JSNum.ofNat 1002)) s := by
  unfold handleMessage
  rw [h, JS.eval_ok_bind, hr]
  rfl

theorem handleMessage_throw (rt : Runtime) (ws : Conn) (m : JSVal) (e : JSError) (s : Server)
    (h : validateMessage m = .error e) :
    handleMessage rt ws m s = (.error e, s) := by
  unfold handleMessage
  rw [h, JS.eval_error_bind]

theorem onMessage_parsed (rt : Runtime) (ws : Conn) (data : String) (m : JSVal) (s : Server)
    (hparse : rt.jsonParse data = some m) :
    onMessage rt ws data s =
      JS.tryCatch (handleMessage rt ws m)
        (fun _ => sendError rt ws (.str "Invalid message format") (.num (JSNum.ofNat 1001)))
        s := by
  simp only [onMessage, JS.tryCatch, hparse, JS.eval_ok_bind]

theorem onMessage_unparsed (rt : Runtime) (ws : Conn) (data : String) (s : Server)
    (hparse : rt.jsonParse data = none) :
    onMessage rt ws data s =
      sendError rt ws (.str "Invalid message format") (.num (JSNum.ofNat 1001)) s := by
  simp only [onMessage, JS.tryCatch, hparse, JS.eval_error_bind]

theorem tryCatch_ok {α : Type} (body : JS α) (handler : JSError → JS α) (s s' : Server)
    (a : α) (h : body s = (.ok a, s')) : JS.tryCatch body handler s = (.ok a, s') := by
  simp only [JS.tryCatch, h]

theorem tryCatch_error {α : Type} (body : JS α) (handler : JSError → JS α) (s s' : Server)
    (e : JSError) (h : body s = (.error e, s')) :
    JS.tryCatch body handler s = handler e s' := by
  simp only [JS.tryCatch, h]

theorem handleMessage_switch (rt : Runtime) (ws : Conn) (m t : JSVal) (s : Server)
    (hv : isValid m = true) (ht : getProp m "type" = .ok t) :
    handleMessage rt ws m s =
      if strictEqualsStr t "command" then handleCommand rt ws m s
      else if strictEqualsStr t "event" then handleEvent ws m s
      else if strictEqualsStr t "response" then handleResponse ws m s
      else sendError rt ws (.str "Invalid message type") (.num (JSNum.ofNat 1003)) s := by
  obtain ⟨fields, rfl, -⟩ := (isValid_iff m).1 hv
  simp only [getProp, Except.ok.injEq] at ht
  rw [handleMessage_valid rt ws fields s hv, ht]

theorem sendError_sent (rt : Runtime) (ws : Conn) (msg code : JSVal) (s : Server) :
    (sendError rt ws msg code s).2.sent =
      s.sent ++ (if s.readyState ws = .OPEN then [(ws, errorEnvelope rt s.clock msg code)]
        else []) := by
  rw [sendError_apply]
  split <;> simp

theorem sendResponse_open (rt : Runtime) (ws : Conn) (rid data : JSVal) (s : Server)
    (hopen : s.readyState ws = .OPEN) :
    sendResponse rt ws rid data s =
      (.ok (), { s with sent := s.sent ++ [(ws, responseEnvelope rt s.clock data)],
                        clock := s.clock + 2 }) := by
  rw [sendResponse_apply, if_pos hopen]

theorem sendResponse_sent (rt : Runtime) (ws : Conn) (rid data : JSVal) (s : Server) :
    (sendResponse rt ws rid data s).2.sent =
      s.sent ++ (if s.readyState ws = .OPEN then [(ws, responseEnvelope rt s.clock data)]
        else []) := by
  rw [sendResponse_apply]
  split <;> simp

theorem tryCatch_of_ok {α : Type} (body : JS α) (handler : JSError → JS α) (s : Server)
    (a : α) (h : (body s).1 = .ok a) : JS.tryCatch body handler s = body s := by
  unfold JS.tryCatch
  cases hb : body s with
  | mk r s' =>
    rw [hb] at h
    cases h
    rfl

/-- The ways `handleMessage` ends: a throw before any effect, nothing at all, one call of
`sendError`, the response to `getData`, or the broadcast of an envelope of type `event`. -/
theorem handleMessage_outcome (rt : Runtime) (A : Conn) (m : JSVal) (s : Server) :
    (∃ e, handleMessage rt A m s = (.error e, s)) ∨
    handleMessage rt A m s = (.ok (), s) ∨
    (∃ text code, (code = 1002 ∨ code = 1003 ∨ code = 2001) ∧ handleMessage rt A m s =
      sendError rt A (.str text) (.num (JSNum.ofNat code)) s) ∨
    (∃ rid, handleMessage rt A m s =
      sendResponse rt A rid (getDataResult rt s.clock) { s with clock := s.clock + 2 }) ∨
    (getProp m "type" = .ok (.str "event") ∧
      handleMessage rt A m s = broadcast m (some A) s) := by
  cases hval : validateMessage m with
  | error e => exact Or.inl ⟨e, handleMessage_throw rt A m e s hval⟩
  | ok r =>
    cases hr : r.toBoolean with
    | false =>
      exact Or.inr (Or.inr (Or.inl ⟨_, 1002, Or.inl rfl,
        handleMessage_invalid rt A m r s hval hr⟩))
    | true =>
      have hv : isValid m = true := by simp only [isValid, hval, hr]
      obtain ⟨fields, rfl, -⟩ := (isValid_iff m).1 hv
      rw [handleMessage_switch rt A _ _ s hv rfl]
      by_cases h1 : strictEqualsStr (lookupField "type" fields) "command" = true
      · rw [if_pos h1]
        rcases handleCommand_cases rt A (.obj fields) s with
          ⟨e, -, hrun⟩ | ⟨-, hrun⟩ | ⟨-, rid, -, hrun⟩
        · exact Or.inl ⟨e, hrun⟩
        · exact Or.inr (Or.inr (Or.inl ⟨_, 2001, Or.inr (Or.inr rfl), hrun⟩))
        · exact Or.inr (Or.inr (Or.inr (Or.inl ⟨rid, hrun⟩)))
      · rw [if_neg h1]
        by_cases h2 : strictEqualsStr (lookupField "type" fields) "event" = true
        · rw [if_pos h2]
          rcases handleEvent_cases A (.obj fields) s with ⟨e, -, hrun⟩ | ⟨-, hrun⟩
          · exact Or.inl ⟨e, hrun⟩
          · refine Or.inr (Or.inr (Or.inr (Or.inr ⟨?_, hrun⟩)))
            rw [strictEqualsStr_iff] at h2
            simp only [getProp, h2]
        · rw [if_neg h2]
          by_cases h3 : strictEqualsStr (lookupField "type" fields) "response" = true
          · rw [if_pos h3]
            exact Or.inr (Or.inl rfl)
          · rw [if_neg h3]
            exact Or.inr (Or.inr (Or.inl ⟨_, 1003, Or.inr (Or.inl rfl), rfl⟩))

/-- The ways the message handler ends, always normally: nothing at all, one call of
`sendError`, the response to `getData`, or the broadcast of an envelope of type `event`. -/
theorem onMessage_outcome (rt : Runtime) (A : Conn) (data : String) (s : Server) :
    onMessage rt A data s = (.ok (), s) ∨
    (∃ text code, onMessage rt A data s =
      sendError rt A (.str text) (.num (JSNum.ofNat code)) s) ∨
    (∃ rid, onMessage rt A data s =
      sendResponse rt A rid (getDataResult rt s.clock) { s with clock := s.clock + 2 }) ∨
    (∃ m, rt.jsonParse data = some m ∧ getProp m "type" = .ok (.str "event") ∧
      onMessage rt A data s = broadcast m (some A) s) := by
  cases hparse : rt.jsonParse data with
  | none => exact Or.inr (Or.inl ⟨_, _, onMessage_unparsed rt A data s hparse⟩)
  | some m =>
    rw [onMessage_parsed rt A data m s hparse]
    rcases handleMessage_outcome rt A m s with
      ⟨e, hrun⟩ | hrun | ⟨text, code, -, hrun⟩ | ⟨rid, hrun⟩ | ⟨hty, hrun⟩
    · exact Or.inr (Or.inl ⟨_, _, tryCatch_error _ _ s s e hrun⟩)
    · exact Or.inl (tryCatch_ok _ _ s s () hrun)
    · refine Or.inr (Or.inl ⟨text, code, ?_⟩)
      rw [tryCatch_of_ok _ _ s () (by rw [hrun, sendError_apply]), hrun]
    · refine Or.inr (Or.inr (Or.inl ⟨rid, ?_⟩))
      rw [tryCatch_of_ok _ _ s () (by rw [hrun, sendResponse_apply]), hrun]
    · refine Or.inr (Or.inr (Or.inr ⟨m, rfl, hty, ?_⟩))
      rw [tryCatch_of_ok _ _ s () (by rw [hrun, broadcast_apply]), hrun]

/-- The registry stays a set: `add` keeps it free of duplicates. -/
theorem clientsAdd_nodup (ws : Conn) (s : Server) (h : s.clients.Nodup) :
    (clientsAdd ws s).2.clients.Nodup := by
  simp only [clientsAdd]
  split
  · exact h
  · rename_i hmem
    exact List.Nodup.append h (List.nodup_singleton ws) (by simpa using hmem)

/-- The registry stays a set: `delete` keeps it free of duplicates. -/
theorem clientsDelete_nodup (ws : Conn) (s : Server) (h : s.clients.Nodup) :
    (clientsDelete ws s).2.clients.Nodup :=
  h.filter _

/-! ## Broadcast of events -/

/-- C1. A valid envelope of type `event` whose `payload.event` is a record, handled by
`handleMessage` from socket `A`: the call returns without a throw, the registry is unchanged,
and the sends it makes are one send of the envelope to each registered socket that is open
and is not `A`, and no other. So each such socket is sent to exactly once and every other
socket (among them `A` and the registered sockets that are not open) not at all, the number
of sends is the number of other open registered sockets, and nothing is sent when `A` is the
only registered socket. -/
theorem event_broadcast_exclusion (rt : Runtime) (A : Conn) (m : JSVal) (s : Server)
    (hvalid : isValid m = true)
    (htype : getProp m "type" = .ok (.str "event"))
    (hevent : ∃ evFields, getPath m ["payload", "event"] = .ok (.obj evFields))
    (hset : s.clients.Nodup) :
    (handleMessage rt A m s).1 = .ok () ∧
    (handleMessage rt A m s).2.clients = s.clients ∧
    (∃ new : List (Conn × JSVal),
      (handleMessage rt A m s).2.sent = s.sent ++ new ∧
      new = (s.clients.filter (fun c => c ≠ A ∧ s.readyState c = .OPEN)).map (fun c => (c, m)) ∧
      (∀ c, (new.map Prod.fst).count c =
        if c ∈ s.clients ∧ c ≠ A ∧ s.readyState c = .OPEN then 1 else 0) ∧
      new.length =
        (s.clients.toFinset.filter (fun c => c ≠ A ∧ s.readyState c = .OPEN)).card ∧
      (s.clients = [A] → new = [])) := by
  obtain ⟨fields, rfl, -⟩ := (isValid_iff m).1 hvalid
  obtain ⟨evFields, hevent⟩ := hevent
  simp only [getProp, Except.ok.injEq] at htype
  have hrun : handleMessage rt A (.obj fields) s = broadcast (.obj fields) (some A) s := by
    rw [handleMessage_valid rt A fields s hvalid, htype]
    simp only [strictEqualsStr]
    rw [if_neg (by decide), if_pos (by decide)]
    exact handleEvent_apply A fields s evFields hevent
  have hrec : recipients s (some A) =
      s.clients.filter (fun c => c ≠ A ∧ s.readyState c = .OPEN) := by
    simp [recipients]
  rw [hrun, broadcast_apply, hrec]
  refine ⟨rfl, rfl, _, rfl, rfl, ?_, ?_, ?_⟩
  · intro c
    rw [List.map_map]
    have hid : (Prod.fst ∘ fun c => (c, JSVal.obj fields)) = (id : Conn → Conn) := rfl
    rw [hid, List.map_id, List.count_eq_of_nodup (hset.filter _)]
    simp only [List.mem_filter, decide_eq_true_eq]
  · rw [List.length_map, ← List.toFinset_card_of_nodup (hset.filter _), List.toFinset_filter]
    simp only [decide_eq_true_eq]
  · intro h
    simp [h]

/-- Witness of C1: sockets 1, 2, 3 registered, 3 closed, an event from socket 1: the one send
goes to socket 2. -/
theorem event_broadcast_exclusion_witness :
    isValid eventMsg = true ∧ s0.clients.Nodup ∧
      (handleMessage rt0 1 eventMsg s0).2.sent = [(2, eventMsg)] :=
  ⟨rfl, by decide, by
    obtain ⟨-, -, new, h1, h2, -⟩ :=
      event_broadcast_exclusion rt0 1 eventMsg s0 rfl rfl ⟨_, rfl⟩ (by decide)
    rw [h1, h2]
    rfl⟩

/-! ## Validation -/

/-- C2, refuted as stated. The frame `null` decodes (to the value `null`) and is not valid,
and the one envelope sent for it carries code 1001 and "Invalid message format", not code
1002: the read `message.type` throws on `null` and the `catch` of the message handler
answers. -/
theorem null_frame_answered_1001 :
    rt0.jsonParse "null" = some .null ∧ isValid .null = false ∧
      s1.readyState 1 = .OPEN ∧
      (onMessage rt0 1 "null" s1).2.sent =
        [(1, errorEnvelope rt0 0 (.str "Invalid message format") (.num (JSNum.ofNat 1001)))] ∧
      ¬ IsErrorEnvelope
        (errorEnvelope rt0 0 (.str "Invalid message format") (.num (JSNum.ofNat 1001)))
        1002 "Missing required message fields" := by
  refine ⟨rfl, rfl, rfl, rfl, ?_⟩
  rintro ⟨-, h, -⟩
  simp [errorEnvelope, getPath, getProp, lookupField, JSNum.ofNat] at h

/-- C2, amended. A frame from a socket `A` that decodes to a value other than `null` (and
`undefined`, which `JSON.parse` never returns) on which `validateMessage` returns a falsy
value: the handler is the call `sendError(A, 'Missing required message fields', 1002)` and
returns normally. With `A` open, as a socket delivering a frame is, it makes exactly one
send, to `A`, of an envelope of type `error` with code 1002 and message "Missing required
message fields"; nothing else is sent and the registry is unchanged. -/
theorem invalid_frame_answered_1002 (rt : Runtime) (A : Conn) (data : String) (v : JSVal)
    (s : Server)
    (hparse : rt.jsonParse data = some v) (hnull : v ≠ .null) (hundef : v ≠ .undefined)
    (hinvalid : isValid v = false) :
    onMessage rt A data s =
      sendError rt A (.str "Missing required message fields") (.num (JSNum.ofNat 1002)) s ∧
    (s.readyState A = .OPEN →
      onMessage rt A data s =
        (.ok (), { s with
          sent := s.sent ++ [(A, errorEnvelope rt s.clock
            (.str "Missing required message fields") (.num (JSNum.ofNat 1002)))],
          clock := s.clock + 2 })) ∧
    IsErrorEnvelope
      (errorEnvelope rt s.clock (.str "Missing required message fields")
        (.num (JSNum.ofNat 1002)))
      1002 "Missing required message fields" := by
  obtain ⟨r, hr⟩ := validateMessage_ok v hnull hundef
  have hfalsy : r.toBoolean = false := by
    simpa [isValid, hr] using hinvalid
  have hrun : onMessage rt A data s =
      sendError rt A (.str "Missing required message fields") (.num (JSNum.ofNat 1002)) s := by
    rw [onMessage_parsed rt A data v s hparse,
      tryCatch_of_ok _ _ s ()
        (by rw [handleMessage_invalid rt A v r s hr hfalsy, sendError_apply]),
      handleMessage_invalid rt A v r s hr hfalsy]
  refine ⟨hrun, ?_, isErrorEnvelope_errorEnvelope rt s.clock 1002 _⟩
  intro hopen
  rw [hrun, sendError_open rt A _ _ s hopen]

/-- Witness of the amended C2: the frame decoding to the number 7, from socket 1. -/
theorem invalid_frame_answered_1002_witness :
    (onMessage { rt0 with jsonParse := fun _ => some (.num (JSNum.ofNat 7)) } 1 "7" s1).2.sent =
      [(1, errorEnvelope rt0 0 (.str "Missing required message fields")
        (.num (JSNum.ofNat 1002)))] := by
  have h := (invalid_frame_answered_1002
    { rt0 with jsonParse := fun _ => some (.num (JSNum.ofNat 7)) } 1 "7"
    (.num (JSNum.ofNat 7)) s1 rfl (by simp) (by simp) rfl).2.1 rfl
  rw [h]
  rfl

/-- C3. A message `m` (an object, or any value whose properties can be read) that misses one
of the fields `type`, `id`, `timestamp`, `payload`, in that the read of the field gives
`undefined` (the property is absent) or `null`: `validateMessage` returns a falsy value, and
`handleMessage` answers with the error 1002, which on an open socket is the one send made. -/
theorem missing_field_rejected (rt : Runtime) (ws : Conn) (m : JSVal) (s : Server)
    (key : String) (hkey : key ∈ ["type", "id", "timestamp", "payload"])
    (hmissing : getProp m key = .ok .undefined ∨ getProp m key = .ok .null) :
    (∃ r, validateMessage m = .ok r ∧ r.toBoolean = false) ∧
    isValid m = false ∧
    handleMessage rt ws m s =
      sendError rt ws (.str "Missing required message fields") (.num (JSNum.ofNat 1002)) s ∧
    (s.readyState ws = .OPEN →
      (handleMessage rt ws m s).2.sent =
        s.sent ++ [(ws, errorEnvelope rt s.clock (.str "Missing required message fields")
          (.num (JSNum.ofNat 1002)))]) := by
  have hnull : m ≠ .null := by
    rintro rfl
    rcases hmissing with h | h <;> cases h
  have hundef : m ≠ .undefined := by
    rintro rfl
    rcases hmissing with h | h <;> cases h
  have hinv : isValid m = false := by
    cases hv : isValid m with
    | false => rfl
    | true =>
      obtain ⟨fields, rfl, h1, h2, h3, h4⟩ := (isValid_iff m).1 hv
      have hfalsy : (lookupField key fields).toBoolean = false := by
        simp only [getProp, Except.ok.injEq] at hmissing
        rcases hmissing with h | h <;> rw [h] <;> rfl
      simp only [List.mem_cons, List.mem_singleton, List.not_mem_nil, or_false] at hkey
      rcases hkey with rfl | rfl | rfl | rfl <;> simp_all
  obtain ⟨r, hr⟩ := validateMessage_ok m hnull hundef
  have hrf : r.toBoolean = false := by
    simpa [isValid, hr] using hinv
  have hrun := handleMessage_invalid rt ws m r s hr hrf
  refine ⟨⟨r, hr, hrf⟩, hinv, hrun, ?_⟩
  intro hopen
  rw [hrun, sendError_open rt ws _ _ s hopen]

/-- Witness of C3: an object without `id`, handled from socket 1. -/
theorem missing_field_rejected_witness :
    getProp noIdMsg "id" = .ok .undefined ∧
    isValid noIdMsg = false ∧
    (handleMessage rt0 1 noIdMsg s1).2.sent =
      [(1, errorEnvelope rt0 0 (.str "Missing required message fields")
        (.num (JSNum.ofNat 1002)))] :=
  ⟨rfl,
   (missing_field_rejected rt0 1 noIdMsg s1 "id" (by decide) (Or.inl rfl)).2.1,
   (missing_field_rejected rt0 1 noIdMsg s1 "id" (by decide) (Or.inl rfl)).2.2.2 rfl⟩

/-- C4, refuted as stated. An envelope whose type and id are non-empty strings, whose
timestamp is the integer 0 and whose payload is a record is rejected: `validateMessage`
returns the timestamp 0, which is falsy. -/
theorem zero_timestamp_rejected :
    getProp zeroTimestampMsg "type" = .ok (.str "event") ∧
    getProp zeroTimestampMsg "id" = .ok (.str "e-1") ∧
    getProp zeroTimestampMsg "timestamp" = .ok (.num (JSNum.ofInt 0)) ∧
    getProp zeroTimestampMsg "payload" = .ok (.obj [("event", .obj [("name", .str "ping")])]) ∧
    validateMessage zeroTimestampMsg = .ok (.num (JSNum.ofInt 0)) ∧
    isValid zeroTimestampMsg = false :=
  ⟨rfl, rfl, rfl, rfl, rfl, rfl⟩

/-- C4, amended. A message is valid (the result of `validateMessage` is truthy) if and only
if it is an object whose four fields `type`, `id`, `timestamp`, `payload` are all truthy;
and when type and id are non-empty strings, timestamp a non-zero integer and payload a
record, `validateMessage` returns the payload record, which is truthy. -/
theorem valid_iff_four_fields_truthy (m : JSVal) :
    (isValid m = true ↔ ∃ fields, m = .obj fields ∧
      (lookupField "type" fields).toBoolean = true ∧
      (lookupField "id" fields).toBoolean = true ∧
      (lookupField "timestamp" fields).toBoolean = true ∧
      (lookupField "payload" fields).toBoolean = true) ∧
    (∀ (type id : String) (timestamp : Int) (payload : List (String × JSVal)),
      getProp m "type" = .ok (.str type) → type ≠ "" →
      getProp m "id" = .ok (.str id) → id ≠ "" →
      getProp m "timestamp" = .ok (.num (JSNum.ofInt timestamp)) → timestamp ≠ 0 →
      getProp m "payload" = .ok (.obj payload) →
      validateMessage m = .ok (.obj payload) ∧ isValid m = true) := by
  refine ⟨isValid_iff m, ?_⟩
  intro type id timestamp payload ht hte hi hie hts htz hp
  have h1 : (JSVal.str type).toBoolean = true := by simpa [JSVal.toBoolean] using hte
  have h2 : (JSVal.str id).toBoolean = true := by simpa [JSVal.toBoolean] using hie
  have h3 : (JSVal.num (JSNum.ofInt timestamp)).toBoolean = true := by
    simpa [JSVal.toBoolean, JSNum.toBoolean, JSNum.ofInt] using htz
  have hval : validateMessage m = .ok (.obj payload) := by
    simp only [validateMessage, logicalAnd, ht, hi, hts, hp, h1, h2, h3, if_true]
  exact ⟨hval, by simp only [isValid, hval, JSVal.toBoolean]⟩

/-- Witness of the amended C4: the event envelope with timestamp 5 is accepted. -/
theorem valid_iff_four_fields_truthy_witness :
    validateMessage eventMsg = .ok (.obj [("event", .obj [("name", .str "ping")])]) ∧
    isValid eventMsg = true :=
  (valid_iff_four_fields_truthy eventMsg).2 "event" "e-1" 5 _ rfl (by decide) rfl (by decide)
    rfl (by decide) rfl

/-! ## Errors of decoding -/

/-- C5. A frame from an open socket `A` that `JSON.parse` rejects: the handler returns
normally having made exactly one send, to `A`, of an envelope of type `error` with code 1001
and message "Invalid message format"; no other socket is sent anything, nothing is
dispatched, and the registry and the state of every socket are unchanged. -/
theorem malformed_frame_answered_1001 (rt : Runtime) (A : Conn) (data : String) (s : Server)
    (hparse : rt.jsonParse data = none) (hopen : s.readyState A = .OPEN) :
    onMessage rt A data s =
      (.ok (), { s with
        sent := s.sent ++ [(A, errorEnvelope rt s.clock
          (.str "Invalid message format") (.num (JSNum.ofNat 1001)))],
        clock := s.clock + 2 }) ∧
    (onMessage rt A data s).2.clients = s.clients ∧
    (onMessage rt A data s).2.readyState = s.readyState ∧
    IsErrorEnvelope
      (errorEnvelope rt s.clock (.str "Invalid message format") (.num (JSNum.ofNat 1001)))
      1001 "Invalid message format" := by
  have h := onMessage_unparsed rt A data s hparse
  rw [sendError_open rt A _ _ s hopen] at h
  refine ⟨h, ?_, ?_, isErrorEnvelope_errorEnvelope rt s.clock 1001 _⟩ <;> rw [h]

/-- Witness of C5: the frame `oops` from socket 1, with sockets 2 and 3 registered. -/
theorem malformed_frame_answered_1001_witness :
    rt0.jsonParse "oops" = none ∧ s0.readyState 1 = .OPEN ∧
    (onMessage rt0 1 "oops" s0).2.sent =
      [(1, errorEnvelope rt0 0 (.str "Invalid message format") (.num (JSNum.ofNat 1001)))] ∧
    (onMessage rt0 1 "oops" s0).2.clients = [1, 2, 3] := by
  have h := malformed_frame_answered_1001 rt0 1 "oops" s0 rfl rfl
  exact ⟨rfl, rfl, by rw [h.1]; rfl, by rw [h.2.1]; rfl⟩

/-! ## The switch on the type and the commands -/

/-- C6. A valid envelope handled by `handleMessage` from a socket `A`, `t` being its `type`.
When `t` is not one of the strings `command`, `event`, `response` (it may be the string
`error`, another string, or a truthy value that is not a string), the call is the call
`sendError(A, 'Invalid message type', 1003)`: with `A` open, as a socket delivering a frame
is, it makes exactly one send, to `A`, of an envelope of type `error` with code 1003 and
message "Invalid message type", and changes nothing else. When `t` is `command`, `event` or
`response` the call is the call of `handleCommand`, `handleEvent`, `handleResponse`
respectively, and no envelope it sends is an error with code 1003. -/
theorem type_switch (rt : Runtime) (A : Conn) (m t : JSVal) (s : Server)
    (hvalid : isValid m = true) (htype : getProp m "type" = .ok t) :
    (t ≠ .str "command" → t ≠ .str "event" → t ≠ .str "response" →
      handleMessage rt A m s =
        sendError rt A (.str "Invalid message type") (.num (JSNum.ofNat 1003)) s ∧
      (s.readyState A = .OPEN →
        handleMessage rt A m s =
          (.ok (), { s with
            sent := s.sent ++ [(A, errorEnvelope rt s.clock
              (.str "Invalid message type") (.num (JSNum.ofNat 1003)))],
            clock := s.clock + 2 })) ∧
      IsErrorEnvelope
        (errorEnvelope rt s.clock (.str "Invalid message type") (.num (JSNum.ofNat 1003)))
        1003 "Invalid message type") ∧
    (t = .str "command" → handleMessage rt A m s = handleCommand rt A m s) ∧
    (t = .str "event" → handleMessage rt A m s = handleEvent A m s) ∧
    (t = .str "response" → handleMessage rt A m s = handleResponse A m s) ∧
    (t = .str "command" ∨ t = .str "event" ∨ t = .str "response" →
      ∃ new : List (Conn × JSVal), (handleMessage rt A m s).2.sent = s.sent ++ new ∧
        ∀ p ∈ new, getProp p.2 "type" = .ok (.str "error") →
          getPath p.2 ["payload", "error", "code"] ≠ .ok (.num (JSNum.ofNat 1003))) := by
  have hsw := handleMessage_switch rt A m t s hvalid htype
  have hcmd : t = .str "command" → handleMessage rt A m s = handleCommand rt A m s := by
    rintro rfl
    rw [hsw, if_pos (by decide)]
  have hev : t = .str "event" → handleMessage rt A m s = handleEvent A m s := by
    rintro rfl
    rw [hsw, if_neg (by decide), if_pos (by decide)]
  have hresp : t = .str "response" → handleMessage rt A m s = handleResponse A m s := by
    rintro rfl
    rw [hsw, if_neg (by decide), if_neg (by decide), if_pos (by decide)]
  refine ⟨?_, hcmd, hev, hresp, ?_⟩
  · intro h1 h2 h3
    have hrun : handleMessage rt A m s =
        sendError rt A (.str "Invalid message type") (.num (JSNum.ofNat 1003)) s := by
      rw [hsw, if_neg (by rwa [strictEqualsStr_iff]), if_neg (by rwa [strictEqualsStr_iff]),
        if_neg (by rwa [strictEqualsStr_iff])]
    refine ⟨hrun, ?_, isErrorEnvelope_errorEnvelope rt s.clock 1003 _⟩
    intro hopen
    rw [hrun, sendError_open rt A _ _ s hopen]
  · rintro (h | h | h)
    · rw [hcmd h]
      rcases handleCommand_cases rt A m s with ⟨e, -, hrun⟩ | ⟨-, hrun⟩ | ⟨-, rid, -, hrun⟩
      · exact ⟨[], by rw [hrun]; simp, by simp⟩
      · refine ⟨_, by rw [hrun, sendError_sent], ?_⟩
        intro p hp _
        split at hp
        · rw [List.mem_singleton] at hp
          subst hp
          simp [errorEnvelope, getPath, getProp, lookupField, JSNum.ofNat]
        · cases hp
      · refine ⟨_, by rw [hrun, sendResponse_sent], ?_⟩
        intro p hp hty
        split at hp
        · rw [List.mem_singleton] at hp
          subst hp
          simp [responseEnvelope, getProp, lookupField] at hty
        · cases hp
    · rw [hev h]
      rcases handleEvent_cases A m s with ⟨e, -, hrun⟩ | ⟨-, hrun⟩
      · exact ⟨[], by rw [hrun]; simp, by simp⟩
      · refine ⟨_, by rw [hrun, broadcast_apply], ?_⟩
        intro p hp hty
        obtain ⟨c, -, rfl⟩ := List.mem_map.1 hp
        rw [htype, h] at hty
        simp at hty
    · rw [hresp h]
      exact ⟨[], by simp [handleResponse, JS.pure_apply], by simp⟩

/-- Witness of C6: an envelope of type `error` from socket 1 is answered with 1003. -/
theorem type_switch_witness :
    isValid errorTypeMsg = true ∧ s0.readyState 1 = .OPEN ∧
    (handleMessage rt0 1 errorTypeMsg s0).2.sent =
      [(1, errorEnvelope rt0 0 (.str "Invalid message type") (.num (JSNum.ofNat 1003)))] := by
  have h := (type_switch rt0 1 errorTypeMsg (.str "error") s0 rfl rfl).1
    (by simp) (by simp) (by simp)
  exact ⟨rfl, rfl, by rw [h.2.1 rfl]; rfl⟩

/-- C7. A valid command envelope whose `payload.command.name` is read as a value other than
the string `getData`, handled from a socket `A`: the call is the call
`sendError(A, 'Unknown command', 2001)` and returns normally. With `A` open, as a socket
delivering a frame is, it makes exactly one send, to `A`, of an envelope of type `error` with
code 2001 and message "Unknown command"; that envelope is not a response, no other socket is
sent anything, and the message handler of a frame decoding to that envelope does the same
as `handleMessage`. -/
theorem unknown_command_answered_2001 (rt : Runtime) (A : Conn) (m n : JSVal) (s : Server)
    (hvalid : isValid m = true) (htype : getProp m "type" = .ok (.str "command"))
    (hname : getPath m ["payload", "command", "name"] = .ok n) (hn : n ≠ .str "getData") :
    handleMessage rt A m s =
      sendError rt A (.str "Unknown command") (.num (JSNum.ofNat 2001)) s ∧
    (s.readyState A = .OPEN →
      handleMessage rt A m s =
        (.ok (), { s with
          sent := s.sent ++ [(A, errorEnvelope rt s.clock
            (.str "Unknown command") (.num (JSNum.ofNat 2001)))],
          clock := s.clock + 2 })) ∧
    IsErrorEnvelope
      (errorEnvelope rt s.clock (.str "Unknown command") (.num (JSNum.ofNat 2001)))
      2001 "Unknown command" ∧
    getProp (errorEnvelope rt s.clock (.str "Unknown command") (.num (JSNum.ofNat 2001)))
      "type" ≠ .ok (.str "response") ∧
    (∀ data, rt.jsonParse data = some m →
      onMessage rt A data s = handleMessage rt A m s) := by
  have hrun : handleMessage rt A m s =
      sendError rt A (.str "Unknown command") (.num (JSNum.ofNat 2001)) s := by
    rw [handleMessage_switch rt A m _ s hvalid htype, if_pos (by decide)]
    rcases handleCommand_cases rt A m s with ⟨e, he, -⟩ | ⟨-, hrun⟩ | ⟨hg, -⟩
    · rw [hname] at he
      cases he
    · exact hrun
    · rw [hname, Except.ok.injEq] at hg
      exact absurd hg hn
  refine ⟨hrun, ?_, isErrorEnvelope_errorEnvelope rt s.clock 2001 _, ?_, ?_⟩
  · intro hopen
    rw [hrun, sendError_open rt A _ _ s hopen]
  · simp [errorEnvelope, getProp, lookupField]
  · intro data hparse
    rw [onMessage_parsed rt A data m s hparse]
    exact tryCatch_of_ok _ _ s () (by rw [hrun, sendError_apply])

/-- Witness of C7: the command `reboot` from socket 1, with sockets 2 and 3 registered. -/
theorem unknown_command_answered_2001_witness :
    isValid rebootMsg = true ∧ s0.readyState 1 = .OPEN ∧
    (handleMessage rt0 1 rebootMsg s0).2.sent =
      [(1, errorEnvelope rt0 0 (.str "Unknown command") (.num (JSNum.ofNat 2001)))] := by
  have h := (unknown_command_answered_2001 rt0 1 rebootMsg (.str "reboot") s0 rfl rfl rfl
    (by simp)).2.1 rfl
  exact ⟨rfl, rfl, by rw [h]; rfl⟩

/-- C8. A valid command envelope naming `getData`, handled from an open socket `A`: the
call returns normally having made exactly one send, to `A`, of an envelope of type
`response` whose `payload.response.success` is `true`; that envelope is not an error, no
other socket is sent anything, the registry is unchanged, and the message handler of a
frame decoding to that envelope does the same. -/
theorem getData_answered_with_response (rt : Runtime) (A : Conn) (m : JSVal) (s : Server)
    (hvalid : isValid m = true) (htype : getProp m "type" = .ok (.str "command"))
    (hname : getPath m ["payload", "command", "name"] = .ok (.str "getData"))
    (hopen : s.readyState A = .OPEN) :
    handleMessage rt A m s =
      (.ok (), { s with
        sent := s.sent ++
          [(A, responseEnvelope rt (s.clock + 2) (getDataResult rt s.clock))],
        clock := s.clock + 2 + 2 }) ∧
    IsSuccessResponse (responseEnvelope rt (s.clock + 2) (getDataResult rt s.clock)) ∧
    getProp (responseEnvelope rt (s.clock + 2) (getDataResult rt s.clock)) "type" ≠
      .ok (.str "error") ∧
    (∀ data, rt.jsonParse data = some m →
      onMessage rt A data s = handleMessage rt A m s) := by
  have hrun : handleMessage rt A m s =
      (.ok (), { s with
        sent := s.sent ++
          [(A, responseEnvelope rt (s.clock + 2) (getDataResult rt s.clock))],
        clock := s.clock + 2 + 2 }) := by
    rw [handleMessage_switch rt A m _ s hvalid htype, if_pos (by decide)]
    rcases handleCommand_cases rt A m s with ⟨e, he, -⟩ | ⟨⟨n, hn, hne⟩, -⟩ | ⟨-, rid, -, hrun⟩
    · rw [hname] at he
      cases he
    · rw [hname, Except.ok.injEq] at hn
      exact absurd hn.symm hne
    · rw [hrun, sendResponse_open rt A rid _ { s with clock := s.clock + 2 } hopen]
  refine ⟨hrun, ⟨rfl, rfl⟩, ?_, ?_⟩
  · simp [responseEnvelope, getProp, lookupField]
  · intro data hparse
    rw [onMessage_parsed rt A data m s hparse, hrun]
    exact tryCatch_ok _ _ s _ () hrun

/-- Witness of C8: the command `getData` from socket 1, with sockets 2 and 3 registered. -/
theorem getData_answered_with_response_witness :
    isValid getDataMsg = true ∧ s0.readyState 1 = .OPEN ∧
    (handleMessage rt0 1 getDataMsg s0).2.sent =
      [(1, responseEnvelope rt0 2 (getDataResult rt0 0))] := by
  have h := (getData_answered_with_response rt0 1 getDataMsg s0 rfl rfl rfl rfl).1
  exact ⟨rfl, rfl, by rw [h]; rfl⟩

/-- C9, the code at the failing input. The request `getDataMsg` has id `req-1`; the one
envelope sent for it, a response, has the id drawn from `uuidv4()`, here `uuid-2`, and not
the id of the request. -/
theorem response_id_is_fresh :
    getProp getDataMsg "id" = .ok (.str "req-1") ∧
    (handleMessage rt0 1 getDataMsg s1).2.sent =
      [(1, responseEnvelope rt0 2 (getDataResult rt0 0))] ∧
    getProp (responseEnvelope rt0 2 (getDataResult rt0 0)) "id" = .ok (.str "uuid-2") ∧
    getProp (responseEnvelope rt0 2 (getDataResult rt0 0)) "id" ≠ .ok (.str "req-1") := by
  refine ⟨rfl, rfl, rfl, ?_⟩
  simp [responseEnvelope, getProp, lookupField, rt0]
  decide

/-! ## Errors are never broadcast -/

/-- C10. Whatever the state and the frame received from socket `A`, the handler only appends
to the log of sends, and every envelope of type `error` it sends goes to `A`; every
envelope it sends to another socket has type `event`; and either all its sends go to `A`,
or the frame decodes to an envelope `m` of type `event` and the run is the call
`broadcast(m, A)`, so that what is handed to `broadcast` has type `event`, never `error`. -/
theorem errors_only_to_originator (rt : Runtime) (A : Conn) (data : String) (s : Server) :
    ∃ new : List (Conn × JSVal), (onMessage rt A data s).2.sent = s.sent ++ new ∧
      (∀ p ∈ new, getProp p.2 "type" = .ok (.str "error") → p.1 = A) ∧
      (∀ p ∈ new, p.1 ≠ A → getProp p.2 "type" = .ok (.str "event")) ∧
      ((∀ p ∈ new, p.1 = A) ∨
        ∃ m, rt.jsonParse data = some m ∧ getProp m "type" = .ok (.str "event") ∧
          onMessage rt A data s = broadcast m (some A) s ∧
          ∀ p ∈ new, p.2 = m ∧ p.1 ≠ A) := by
  have hunicast : ∀ new : List (Conn × JSVal),
      (onMessage rt A data s).2.sent = s.sent ++ new → (∀ p ∈ new, p.1 = A) →
      ∃ new : List (Conn × JSVal), (onMessage rt A data s).2.sent = s.sent ++ new ∧
        (∀ p ∈ new, getProp p.2 "type" = .ok (.str "error") → p.1 = A) ∧
        (∀ p ∈ new, p.1 ≠ A → getProp p.2 "type" = .ok (.str "event")) ∧
        ((∀ p ∈ new, p.1 = A) ∨
          ∃ m, rt.jsonParse data = some m ∧ getProp m "type" = .ok (.str "event") ∧
            onMessage rt A data s = broadcast m (some A) s ∧
            ∀ p ∈ new, p.2 = m ∧ p.1 ≠ A) := by
    intro new hsent hall
    exact ⟨new, hsent, fun p hp _ => hall p hp, fun p hp hne => absurd (hall p hp) hne,
      Or.inl hall⟩
  rcases onMessage_outcome rt A data s with
    hrun | ⟨text, code, hrun⟩ | ⟨rid, hrun⟩ | ⟨m, hparse, hty, hrun⟩
  · exact hunicast [] (by rw [hrun]; simp) (by simp)
  · refine hunicast _ (by rw [hrun, sendError_sent]) ?_
    intro p hp
    split at hp
    · rw [List.mem_singleton] at hp
      rw [hp]
    · cases hp
  · refine hunicast _ (by rw [hrun, sendResponse_sent]) ?_
    intro p hp
    split at hp
    · rw [List.mem_singleton] at hp
      rw [hp]
    · cases hp
  · have hmem : ∀ p ∈ List.map (fun c => (c, m)) (recipients s (some A)),
        p.2 = m ∧ p.1 ≠ A := by
      intro p hp
      obtain ⟨c, hc, rfl⟩ := List.mem_map.1 hp
      simp only [recipients, List.mem_filter, decide_eq_true_eq] at hc
      exact ⟨rfl, fun h => hc.2.1 (congrArg some h)⟩
    refine ⟨_, by rw [hrun, broadcast_apply], ?_, ?_, Or.inr ⟨m, hparse, hty, hrun, hmem⟩⟩
    · intro p hp hterr
      rw [(hmem p hp).1, hty] at hterr
      simp at hterr
    · intro p hp _
      rw [(hmem p hp).1, hty]

/-! ## Frames of the senders and of the dispatch -/

theorem sendEvent_apply (rt : Runtime) (ws : Conn) (eventName data : JSVal) (s : Server) :
    sendEvent rt ws eventName data s =
      (.ok (), if s.readyState ws = .OPEN then
          { s with sent := s.sent ++ [(ws, eventEnvelope rt s.clock eventName data)],
                   clock := s.clock + 2 }
        else { s with clock := s.clock + 2 }) := by
  simp only [sendEvent, JS.bind_apply, uuidv4, dateNow, sendMessage, Server.send,
    eventEnvelope]
  split <;> rfl

theorem sendError_frame (rt : Runtime) (ws : Conn) (msg code : JSVal) (s : Server) :
    (sendError rt ws msg code s).2.clients = s.clients ∧
    (sendError rt ws msg code s).2.readyState = s.readyState := by
  rw [sendError_apply]
  split <;> exact ⟨rfl, rfl⟩

theorem sendResponse_frame (rt : Runtime) (ws : Conn) (rid data : JSVal) (s : Server) :
    (sendResponse rt ws rid data s).2.clients = s.clients ∧
    (sendResponse rt ws rid data s).2.readyState = s.readyState := by
  rw [sendResponse_apply]
  split <;> exact ⟨rfl, rfl⟩

theorem broadcast_frame (m : JSVal) (exclude : Option Conn) (s : Server) :
    (broadcast m exclude s).2.clients = s.clients ∧
    (broadcast m exclude s).2.readyState = s.readyState := by
  rw [broadcast_apply]
  exact ⟨rfl, rfl⟩

theorem handleCommand_frame (rt : Runtime) (ws : Conn) (m : JSVal) (s : Server) :
    (handleCommand rt ws m s).2.clients = s.clients ∧
    (handleCommand rt ws m s).2.readyState = s.readyState := by
  rcases handleCommand_cases rt ws m s with ⟨e, -, hrun⟩ | ⟨-, hrun⟩ | ⟨-, rid, -, hrun⟩
  · rw [hrun]
    exact ⟨rfl, rfl⟩
  · rw [hrun]
    exact sendError_frame rt ws _ _ s
  · rw [hrun]
    exact sendResponse_frame rt ws rid _ { s with clock := s.clock + 2 }

theorem handleEvent_frame (ws : Conn) (m : JSVal) (s : Server) :
    (handleEvent ws m s).2.clients = s.clients ∧
    (handleEvent ws m s).2.readyState = s.readyState := by
  rcases handleEvent_cases ws m s with ⟨e, -, hrun⟩ | ⟨-, hrun⟩
  · rw [hrun]
    exact ⟨rfl, rfl⟩
  · rw [hrun]
    exact broadcast_frame m (some ws) s

theorem handleMessage_frame (rt : Runtime) (A : Conn) (m : JSVal) (s : Server) :
    (handleMessage rt A m s).2.clients = s.clients ∧
    (handleMessage rt A m s).2.readyState = s.readyState := by
  rcases handleMessage_outcome rt A m s with
    ⟨e, hrun⟩ | hrun | ⟨text, code, -, hrun⟩ | ⟨rid, hrun⟩ | ⟨-, hrun⟩
  · rw [hrun]
    exact ⟨rfl, rfl⟩
  · rw [hrun]
    exact ⟨rfl, rfl⟩
  · rw [hrun]
    exact sendError_frame rt A _ _ s
  · rw [hrun]
    exact sendResponse_frame rt A rid _ { s with clock := s.clock + 2 }
  · rw [hrun]
    exact broadcast_frame m (some A) s

/-- The message handler always returns normally, leaves the registry and the sockets as they
are, and only appends sends, each to a socket that is open. -/
theorem onMessage_frame (rt : Runtime) (A : Conn) (data : String) (s : Server) :
    (onMessage rt A data s).1 = .ok () ∧
    (onMessage rt A data s).2.clients = s.clients ∧
    (onMessage rt A data s).2.readyState = s.readyState ∧
    ∃ new : List (Conn × JSVal), (onMessage rt A data s).2.sent = s.sent ++ new ∧
      ∀ p ∈ new, s.readyState p.1 = .OPEN := by
  rcases onMessage_outcome rt A data s with
    hrun | ⟨text, code, hrun⟩ | ⟨rid, hrun⟩ | ⟨m, -, -, hrun⟩
  · rw [hrun]
    exact ⟨rfl, rfl, rfl, [], by simp, by simp⟩
  · refine ⟨by rw [hrun, sendError_apply], by rw [hrun]; exact (sendError_frame _ _ _ _ _).1,
      by rw [hrun]; exact (sendError_frame _ _ _ _ _).2, _,
      by rw [hrun, sendError_sent], ?_⟩
    intro p hp
    split at hp
    · rw [List.mem_singleton] at hp
      rw [hp]
      assumption
    · cases hp
  · refine ⟨by rw [hrun, sendResponse_apply],
      by rw [hrun]; exact (sendResponse_frame _ _ _ _ _).1,
      by rw [hrun]; exact (sendResponse_frame _ _ _ _ _).2, _,
      by rw [hrun, sendResponse_sent], ?_⟩
    intro p hp
    split at hp
    · rw [List.mem_singleton] at hp
      rw [hp]
      assumption
    · cases hp
  · refine ⟨by rw [hrun, broadcast_apply], by rw [hrun]; exact (broadcast_frame _ _ _).1,
      by rw [hrun]; exact (broadcast_frame _ _ _).2, _, by rw [hrun, broadcast_apply], ?_⟩
    intro p hp
    obtain ⟨c, hc, rfl⟩ := List.mem_map.1 hp
    simp only [recipients, List.mem_filter, decide_eq_true_eq] at hc
    exact hc.2.2

theorem onConnection_apply (rt : Runtime) (ws : Conn) (s : Server) :
    onConnection rt ws s =
      (.ok (), if s.readyState ws = .OPEN then
          { clients := if ws ∈ s.clients then s.clients else s.clients ++ [ws],
            readyState := s.readyState,
            sent := s.sent ++ [(ws, welcomeEnvelope rt s.clock)],
            clock := s.clock + 1 + 2 }
        else
          { clients := if ws ∈ s.clients then s.clients else s.clients ++ [ws],
            readyState := s.readyState,
            sent := s.sent,
            clock := s.clock + 1 + 2 }) := by
  simp only [onConnection, JS.bind_apply, clientsAdd, dateNow]
  rw [sendEvent_apply]
  by_cases h : s.readyState ws = .OPEN
  · simp only [h, if_true, welcomeEnvelope]
  · simp only [h, if_false]

theorem onConnection_clients (rt : Runtime) (ws : Conn) (s : Server) :
    (onConnection rt ws s).2.clients =
      (if ws ∈ s.clients then s.clients else s.clients ++ [ws]) := by
  rw [onConnection_apply]
  split <;> rfl

/-! ## Responses, the registry and the envelopes of the server -/

/-- C12. A valid envelope of type `response` handled from any socket: `handleMessage` returns
normally and the state is the one it was entered with, so that nothing is sent to any socket
(neither a reply to the sender nor a broadcast) and the registry is unchanged; the message
handler of a frame decoding to such an envelope does the same. -/
theorem response_is_dropped (rt : Runtime) (A : Conn) (m : JSVal) (s : Server)
    (hvalid : isValid m = true) (htype : getProp m "type" = .ok (.str "response")) :
    handleMessage rt A m s = (.ok (), s) ∧
    (handleMessage rt A m s).2.sent = s.sent ∧
    (handleMessage rt A m s).2.clients = s.clients ∧
    (∀ data, rt.jsonParse data = some m → onMessage rt A data s = (.ok (), s)) := by
  have hrun : handleMessage rt A m s = (.ok (), s) := by
    rw [handleMessage_switch rt A m _ s hvalid htype, if_neg (by decide), if_neg (by decide),
      if_pos (by decide)]
    rfl
  refine ⟨hrun, by rw [hrun], by rw [hrun], ?_⟩
  intro data hparse
  rw [onMessage_parsed rt A data m s hparse]
  exact tryCatch_ok _ _ s s () hrun

/-- Witness of C12: a response envelope from socket 1, with sockets 2 and 3 registered. -/
theorem response_is_dropped_witness :
    isValid responseMsg = true ∧ (handleMessage rt0 1 responseMsg s0).2.sent = [] ∧
    (handleMessage rt0 1 responseMsg s0).2.clients = [1, 2, 3] := by
  have h := response_is_dropped rt0 1 responseMsg s0 rfl rfl
  exact ⟨rfl, by rw [h.2.1]; rfl, by rw [h.2.2.1]; rfl⟩

/-- C17. The registry is a set. Adding a socket that is registered leaves the state, and so
the registry, as it is, and removing a socket that is not registered does too; so a
connection handler run for a registered socket and a close handler run for an unregistered
one leave the registry unchanged. Adding twice is adding once, and the registry never
holds a socket twice. -/
theorem registry_set_semantics (rt : Runtime) (c : Conn) (s : Server) :
    (c ∈ s.clients → clientsAdd c s = (.ok (), s)) ∧
    (c ∉ s.clients → clientsDelete c s = (.ok (), s)) ∧
    (c ∈ s.clients → (onConnection rt c s).2.clients = s.clients) ∧
    (c ∉ s.clients → (onClose c s).2.clients = s.clients) ∧
    clientsAdd c (clientsAdd c s).2 = clientsAdd c s ∧
    (s.clients.Nodup → (clientsAdd c s).2.clients.Nodup ∧
      (clientsDelete c s).2.clients.Nodup) := by
  have hadd : c ∈ s.clients → clientsAdd c s = (.ok (), s) := by
    intro h
    simp only [clientsAdd, if_pos h]
  have hdel : c ∉ s.clients → clientsDelete c s = (.ok (), s) := by
    intro h
    have hfilter : s.clients.filter (fun x => x ≠ c) = s.clients := by
      rw [List.filter_eq_self]
      intro x hx
      simp only [ne_eq, decide_eq_true_eq]
      rintro rfl
      exact h hx
    simp only [clientsDelete, hfilter]
  refine ⟨hadd, hdel, ?_, ?_, ?_, ?_⟩
  · intro h
    rw [onConnection_clients, if_pos h]
  · intro h
    simp only [onClose, hdel h]
  · by_cases h : c ∈ s.clients
    · rw [hadd h, hadd h]
    · simp [clientsAdd, h]
  · intro h
    exact ⟨clientsAdd_nodup c s h, clientsDelete_nodup c s h⟩

/-- Witness of C17: socket 2 is registered in `s0` and socket 9 is not. -/
theorem registry_set_semantics_witness :
    (clientsAdd 2 s0).2.clients = [1, 2, 3] ∧ (clientsDelete 9 s0).2.clients = [1, 2, 3] := by
  have h := registry_set_semantics rt0 2 s0
  have h9 := registry_set_semantics rt0 9 s0
  exact ⟨by rw [h.1 (by decide)]; rfl, by rw [h9.2.1 (by decide)]; rfl⟩

/-- C18. Dispatch keeps the registry: whatever the state, the socket and the decoded
message, `handleMessage`, `handleCommand`, `handleEvent`, `handleResponse` and `broadcast`
end with the registry they were entered with, and so does the message handler on every
frame. Of the three events only the acceptance of a socket, which adds it, and the close
of a socket, which removes it, change the registry. -/
theorem dispatch_keeps_registry (rt : Runtime) (A : Conn) (m : JSVal) (s : Server) :
    (handleMessage rt A m s).2.clients = s.clients ∧
    (handleCommand rt A m s).2.clients = s.clients ∧
    (handleEvent A m s).2.clients = s.clients ∧
    (handleResponse A m s).2.clients = s.clients ∧
    (∀ exclude, (broadcast m exclude s).2.clients = s.clients) ∧
    (∀ data, (onMessage rt A data s).2.clients = s.clients) ∧
    (∀ data, (step rt (.message A data) s).clients = s.clients) ∧
    (step rt (.connection A) s).clients =
      (if A ∈ s.clients then s.clients else s.clients ++ [A]) ∧
    (step rt (.close A) s).clients = s.clients.filter (fun c => c ≠ A) := by
  refine ⟨(handleMessage_frame rt A m s).1, (handleCommand_frame rt A m s).1,
    (handleEvent_frame A m s).1, rfl, fun exclude => (broadcast_frame m exclude s).1,
    fun data => (onMessage_frame rt A data s).2.1,
    fun data => (onMessage_frame rt A data s).2.1, ?_, rfl⟩
  simp only [step]
  rw [onConnection_clients]

/-- C20. The envelopes built by `sendEvent`, `sendResponse` and `sendError`, for any event
name, data, error message and error code: when the identifier drawn from `uuidv4()` is not
the empty string and the time read from `Date.now()` is not zero, `validateMessage` accepts
the envelope; its type is `event`, `response`, `error` respectively and its payload holds the
record under the key of that name. These are the envelopes the three methods send. -/
theorem built_envelopes_valid (rt : Runtime) (clock : Nat) (name data msg code : JSVal)
    (hid : rt.uuidv4 clock ≠ "") (hnow : rt.dateNow (clock + 1) ≠ 0) :
    (isValid (eventEnvelope rt clock name data) = true ∧
      getProp (eventEnvelope rt clock name data) "type" = .ok (.str "event") ∧
      getPath (eventEnvelope rt clock name data) ["payload", "event"] =
        .ok (.obj [("name", name), ("data", data)])) ∧
    (isValid (responseEnvelope rt clock data) = true ∧
      getProp (responseEnvelope rt clock data) "type" = .ok (.str "response") ∧
      getPath (responseEnvelope rt clock data) ["payload", "response"] =
        .ok (.obj [("success", .bool true), ("data", data)])) ∧
    (isValid (errorEnvelope rt clock msg code) = true ∧
      getProp (errorEnvelope rt clock msg code) "type" = .ok (.str "error") ∧
      getPath (errorEnvelope rt clock msg code) ["payload", "error"] =
        .ok (.obj [("code", code), ("message", msg)])) ∧
    (∀ (ws : Conn) (s : Server), s.clock = clock → s.readyState ws = .OPEN →
      (sendEvent rt ws name data s).2.sent =
        s.sent ++ [(ws, eventEnvelope rt clock name data)] ∧
      (sendResponse rt ws msg data s).2.sent =
        s.sent ++ [(ws, responseEnvelope rt clock data)] ∧
      (sendError rt ws msg code s).2.sent =
        s.sent ++ [(ws, errorEnvelope rt clock msg code)]) := by
  have h1 : (JSVal.str (rt.uuidv4 clock)).toBoolean = true := by
    simpa [JSVal.toBoolean] using hid
  have h2 : (JSVal.num (JSNum.ofInt (rt.dateNow (clock + 1)))).toBoolean = true := by
    simpa [JSVal.toBoolean, JSNum.toBoolean, JSNum.ofInt] using hnow
  have hvalid : ∀ (t : String) (payload : List (String × JSVal)), t ≠ "" →
      isValid (.obj [("type", .str t), ("id", .str (rt.uuidv4 clock)),
        ("timestamp", .num (JSNum.ofInt (rt.dateNow (clock + 1)))),
        ("payload", .obj payload)]) = true := by
    intro t payload ht
    rw [isValid_iff]
    refine ⟨_, rfl, ?_, ?_, ?_, ?_⟩
    · simpa [lookupField, JSVal.toBoolean] using ht
    · simpa [lookupField] using h1
    · simpa [lookupField] using h2
    · simp [lookupField, JSVal.toBoolean]
  refine ⟨⟨hvalid "event" _ (by decide), rfl, rfl⟩, ⟨hvalid "response" _ (by decide), rfl, rfl⟩,
    ⟨hvalid "error" _ (by decide), rfl, rfl⟩, ?_⟩
  intro ws s hclock hopen
  subst hclock
  refine ⟨?_, ?_, ?_⟩
  · rw [sendEvent_apply, if_pos hopen]
  · rw [sendResponse_apply, if_pos hopen]
  · rw [sendError_apply, if_pos hopen]

/-- Witness of C20: the envelopes built with the identifier `uuid-0` at 1700000000000 ms. -/
theorem built_envelopes_valid_witness :
    rt0.uuidv4 0 ≠ "" ∧ rt0.dateNow 1 ≠ 0 ∧
    isValid (errorEnvelope rt0 0 (.str "Unknown command") (.num (JSNum.ofNat 2001))) = true :=
  ⟨by decide, by decide,
   (built_envelopes_valid rt0 0 .null .null (.str "Unknown command")
      (.num (JSNum.ofNat 2001)) (by decide) (by decide)).2.2.1.1⟩

/-! ## Sequences of events -/

theorem run_nil (rt : Runtime) (s : Server) : run rt [] s = s := rfl

theorem run_cons (rt : Runtime) (e : Event) (es : List Event) (s : Server) :
    run rt (e :: es) s = run rt es (step rt e s) := rfl

/-- The sends of one event go to sockets that are open when the handler runs. -/
theorem step_sent (rt : Runtime) (e : Event) (s : Server) :
    ∃ new : List (Conn × JSVal), (step rt e s).sent = s.sent ++ new ∧
      ∀ p ∈ new, (step rt e s).readyState p.1 = .OPEN := by
  cases e with
  | connection ws =>
    simp only [step]
    rw [onConnection_apply]
    have hopen : Function.update s.readyState ws ReadyState.OPEN ws = .OPEN :=
      Function.update_same ws _ _
    simp only [hopen, if_true]
    refine ⟨_, rfl, ?_⟩
    intro p hp
    rw [List.mem_singleton] at hp
    rw [hp]
    exact hopen
  | message ws data =>
    obtain ⟨-, -, hrs, new, hsent, hnew⟩ := onMessage_frame rt ws data s
    refine ⟨new, hsent, ?_⟩
    intro p hp
    simp only [step]
    rw [hrs]
    exact hnew p hp
  | close ws =>
    exact ⟨[], by simp [step, onClose, clientsDelete], by simp⟩

/-- The log of sends only grows. -/
theorem run_sent (rt : Runtime) (es : List Event) (s : Server) :
    ∃ new : List (Conn × JSVal), (run rt es s).sent = s.sent ++ new := by
  induction es generalizing s with
  | nil => exact ⟨[], by simp [run_nil]⟩
  | cons e es ih =>
    obtain ⟨new1, h1, -⟩ := step_sent rt e s
    obtain ⟨new2, h2⟩ := ih (step rt e s)
    exact ⟨new1 ++ new2, by rw [run_cons, h2, h1, List.append_assoc]⟩

/-- A socket that is neither open nor registered stays so through every event but its own
acceptance, and is sent nothing. -/
theorem step_closed (rt : Runtime) (ws : Conn) (e : Event) (s : Server)
    (he : e ≠ .connection ws) (hstate : s.readyState ws ≠ .OPEN) (hreg : ws ∉ s.clients) :
    (step rt e s).readyState ws ≠ .OPEN ∧ ws ∉ (step rt e s).clients ∧
    ∃ new : List (Conn × JSVal), (step rt e s).sent = s.sent ++ new ∧
      ∀ p ∈ new, p.1 ≠ ws := by
  obtain ⟨new, hsent, hnew⟩ := step_sent rt e s
  have hst : (step rt e s).readyState ws ≠ .OPEN := by
    cases e with
    | connection c =>
      have hc : ws ≠ c := fun h => he (by rw [h])
      simp only [step]
      rw [onConnection_apply]
      split <;> simpa [Function.update_noteq hc] using hstate
    | message c data =>
      simp only [step]
      rw [(onMessage_frame rt c data s).2.2.1]
      exact hstate
    | close c =>
      simp only [step, onClose, clientsDelete]
      by_cases hc : ws = c
      · subst hc
        simp
      · simpa [Function.update_noteq hc] using hstate
  have hcl : ws ∉ (step rt e s).clients := by
    cases e with
    | connection c =>
      have hc : ws ≠ c := fun h => he (by rw [h])
      simp only [step]
      rw [onConnection_clients]
      split
      · exact hreg
      · simpa [hc] using hreg
    | message c data =>
      simp only [step]
      rw [(onMessage_frame rt c data s).2.1]
      exact hreg
    | close c =>
      simp only [step, onClose, clientsDelete, List.mem_filter]
      exact fun h => hreg h.1
  refine ⟨hst, hcl, new, hsent, ?_⟩
  intro p hp hpw
  exact hst (by rw [← hpw]; exact hnew p hp)

theorem run_closed (rt : Runtime) (ws : Conn) (es : List Event) (s : Server)
    (hes : Event.connection ws ∉ es) (hstate : s.readyState ws ≠ .OPEN)
    (hreg : ws ∉ s.clients) :
    (run rt es s).readyState ws ≠ .OPEN ∧ ws ∉ (run rt es s).clients ∧
    ∃ new : List (Conn × JSVal), (run rt es s).sent = s.sent ++ new ∧
      ∀ p ∈ new, p.1 ≠ ws := by
  induction es generalizing s with
  | nil => exact ⟨hstate, hreg, [], by simp [run_nil], by simp⟩
  | cons e es ih =>
    have he : e ≠ .connection ws := fun h => hes (by rw [h]; exact List.mem_cons_self _ _)
    have hes' : Event.connection ws ∉ es := fun h => hes (List.mem_cons_of_mem _ h)
    obtain ⟨h1, h2, new1, h3, h4⟩ := step_closed rt ws e s he hstate hreg
    obtain ⟨h5, h6, new2, h7, h8⟩ := ih (step rt e s) hes' h1 h2
    refine ⟨h5, h6, new1 ++ new2, by rw [run_cons, h7, h3, List.append_assoc], ?_⟩
    intro p hp
    rcases List.mem_append.1 hp with h | h
    · exact h4 p h
    · exact h8 p h

/-! ## The life of a connection -/

/-- C11. A socket `ws` is accepted, nothing having been sent to it before. The connection
handler registers it and then makes exactly one send, to `ws`: an envelope of type `event`
whose `payload.event.name` is `connectionStatus` and whose `payload.event.data.status` is
`connected`. The registration comes first (the handler is the welcome run in the state left
by `this.clients.add(ws)`), no other socket is sent anything, and whatever events follow,
the first envelope the log holds for `ws` is that welcome. -/
theorem welcome_on_connect (rt : Runtime) (ws : Conn) (s : Server)
    (hnew : ∀ p ∈ s.sent, p.1 ≠ ws) :
    (step rt (.connection ws) s).clients =
      (if ws ∈ s.clients then s.clients else s.clients ++ [ws]) ∧
    ws ∈ (step rt (.connection ws) s).clients ∧
    (step rt (.connection ws) s).sent = s.sent ++ [(ws, welcomeEnvelope rt s.clock)] ∧
    (s.readyState ws = .OPEN →
      (onConnection rt ws s).1 = .ok () ∧
      (onConnection rt ws s).2.sent = s.sent ++ [(ws, welcomeEnvelope rt s.clock)]) ∧
    onConnection rt ws s =
      (dateNow rt >>= fun now =>
        sendEvent rt ws (.str "connectionStatus")
          (.obj [("status", .str "connected"), ("timestamp", now)])) (clientsAdd ws s).2 ∧
    getProp (welcomeEnvelope rt s.clock) "type" = .ok (.str "event") ∧
    getPath (welcomeEnvelope rt s.clock) ["payload", "event", "name"] =
      .ok (.str "connectionStatus") ∧
    getPath (welcomeEnvelope rt s.clock) ["payload", "event", "data", "status"] =
      .ok (.str "connected") ∧
    (∀ later : List Event,
      (run rt later (step rt (.connection ws) s)).sent.find? (fun p => p.1 = ws) =
        some (ws, welcomeEnvelope rt s.clock)) := by
  have hopen : Function.update s.readyState ws ReadyState.OPEN ws = .OPEN :=
    Function.update_same ws _ _
  have hsent : (step rt (.connection ws) s).sent =
      s.sent ++ [(ws, welcomeEnvelope rt s.clock)] := by
    simp only [step]
    rw [onConnection_apply]
    simp only [hopen, if_true]
  have hclients : (step rt (.connection ws) s).clients =
      (if ws ∈ s.clients then s.clients else s.clients ++ [ws]) := by
    simp only [step]
    rw [onConnection_clients]
  refine ⟨hclients, ?_, hsent, ?_, rfl, rfl, rfl, rfl, ?_⟩
  · rw [hclients]
    split
    · assumption
    · simp
  · intro h
    rw [onConnection_apply, if_pos h]
    exact ⟨rfl, rfl⟩
  · intro later
    obtain ⟨new, hrun⟩ := run_sent rt later (step rt (.connection ws) s)
    have hnone : s.sent.find? (fun p => decide (p.1 = ws)) = none := by
      rw [List.find?_eq_none]
      intro p hp
      simpa using hnew p hp
    rw [hrun, hsent, List.append_assoc, List.find?_append, hnone]
    simp

/-- Witness of C11: socket 4 is accepted by a server that has sent nothing yet, and socket
2 then sends an event that is broadcast to it. -/
theorem welcome_on_connect_witness :
    (step rt2 (.connection 4) s0).sent = [(4, welcomeEnvelope rt2 0)] ∧
    (step rt2 (.connection 4) s0).clients = [1, 2, 3, 4] ∧
    (run rt2 [.message 2 "ev"] (step rt2 (.connection 4) s0)).sent.find?
      (fun p => p.1 = 4) = some (4, welcomeEnvelope rt2 0) := by
  have h := welcome_on_connect rt2 4 s0 (by simp [s0])
  exact ⟨by rw [h.2.2.1]; rfl, by rw [h.1]; rfl, h.2.2.2.2.2.2.2.2 _⟩

/-- C13. A socket `ws` receives its close signal, and any events follow among which `ws`,
whose object is not accepted a second time, has no `connection` event. After the close
`ws` is not in the registry and its state is `CLOSED`; it is not in the registry after the
later events either, and none of the sends they make (replies, errors, broadcasts, from any
socket) goes to `ws`. This is the skip of `sendMessage` and `broadcast`: a socket that is
not open is sent nothing by either. -/
theorem closed_socket_never_sent_to (rt : Runtime) (ws : Conn) (s : Server)
    (later : List Event) (hfresh : Event.connection ws ∉ later) :
    ws ∉ (step rt (.close ws) s).clients ∧
    (step rt (.close ws) s).readyState ws = .CLOSED ∧
    (step rt (.close ws) s).sent = s.sent ∧
    ws ∉ (run rt later (step rt (.close ws) s)).clients ∧
    (∃ new : List (Conn × JSVal),
      (run rt later (step rt (.close ws) s)).sent = s.sent ++ new ∧ ∀ p ∈ new, p.1 ≠ ws) ∧
    (∀ (t : Server) (m : JSVal), t.readyState ws ≠ .OPEN →
      sendMessage ws m t = (.ok (), t)) ∧
    (∀ (t : Server) (m : JSVal) (exclude : Option Conn), t.readyState ws ≠ .OPEN →
      ∃ new : List (Conn × JSVal), (broadcast m exclude t).2.sent = t.sent ++ new ∧
        ∀ p ∈ new, p.1 ≠ ws) := by
  have hcl : ws ∉ (step rt (.close ws) s).clients := by
    simp [step, onClose, clientsDelete]
  have hst : (step rt (.close ws) s).readyState ws = .CLOSED := by
    simp [step, onClose, clientsDelete]
  have hsent : (step rt (.close ws) s).sent = s.sent := rfl
  obtain ⟨-, h2, new, h3, h4⟩ :=
    run_closed rt ws later (step rt (.close ws) s) hfresh (by rw [hst]; decide) hcl
  refine ⟨hcl, hst, hsent, h2, ⟨new, by rw [h3, hsent], h4⟩, ?_, ?_⟩
  · intro t m ht
    simp only [sendMessage, if_neg ht]
  · intro t m exclude ht
    refine ⟨_, by rw [broadcast_apply], ?_⟩
    intro p hp hpw
    obtain ⟨c, hc, rfl⟩ := List.mem_map.1 hp
    simp only [recipients, List.mem_filter, decide_eq_true_eq] at hc
    exact ht (by rw [← hpw]; exact hc.2.2)

/-- Witness of C13: of the open sockets 1, 2, 3, socket 2 closes and socket 1 then sends an
event: it is broadcast to socket 3 only. -/
theorem closed_socket_never_sent_to_witness :
    Event.connection 2 ∉ [Event.message 1 "ev"] ∧
    2 ∉ (run rt2 [.message 1 "ev"] (step rt2 (.close 2) sOpen)).clients ∧
    (∃ new : List (Conn × JSVal),
      (run rt2 [.message 1 "ev"] (step rt2 (.close 2) sOpen)).sent = sOpen.sent ++ new ∧
        ∀ p ∈ new, p.1 ≠ 2) ∧
    (run rt2 [.message 1 "ev"] (step rt2 (.close 2) sOpen)).sent = [(3, eventMsg)] :=
  ⟨by decide,
   (closed_socket_never_sent_to rt2 2 sOpen [.message 1 "ev"] (by decide)).2.2.2.1,
   (closed_socket_never_sent_to rt2 2 sOpen [.message 1 "ev"] (by decide)).2.2.2.2.1,
   rfl⟩

/-! ## Failures inside a handler and the code 1001 -/

theorem getPath_name_of_undefined (m : JSVal) (key : String)
    (h : getPath m ["payload", key] = .ok .undefined ∨ getPath m ["payload", key] = .ok .null) :
    getPath m ["payload", key, "name"] = .error .typeError := by
  simp only [getPath] at h ⊢
  cases hp : getProp m "payload" with
  | error e => rw [hp] at h; simp at h
  | ok p =>
    rw [hp] at h
    simp only at h ⊢
    cases hc : getProp p key with
    | error e => rw [hc] at h; simp at h
    | ok c =>
      rw [hc] at h
      simp only [Except.ok.injEq] at h ⊢
      rcases h with h | h <;> rw [h] <;> rfl

/-- When `handleMessage` throws, nothing has been done, and the message is `null` or
`undefined`, or a valid command or event whose `payload.command.name` or
`payload.event.name` cannot be read. -/
theorem handleMessage_throw_cases (rt : Runtime) (A : Conn) (m : JSVal) (s t : Server)
    (e : JSError) (h : handleMessage rt A m s = (.error e, t)) :
    t = s ∧
    (m = .null ∨ m = .undefined ∨
      (isValid m = true ∧ getProp m "type" = .ok (.str "command") ∧
        getPath m ["payload", "command", "name"] = .error e) ∨
      (isValid m = true ∧ getProp m "type" = .ok (.str "event") ∧
        getPath m ["payload", "event", "name"] = .error e)) := by
  cases hval : validateMessage m with
  | error e' =>
    rw [handleMessage_throw rt A m e' s hval] at h
    refine ⟨by cases h; rfl, ?_⟩
    by_cases h1 : m = .null
    · exact Or.inl h1
    · by_cases h2 : m = .undefined
      · exact Or.inr (Or.inl h2)
      · obtain ⟨r, hr⟩ := validateMessage_ok m h1 h2
        rw [hr] at hval
        cases hval
  | ok r =>
    cases hr : r.toBoolean with
    | false =>
      rw [handleMessage_invalid rt A m r s hval hr, sendError_apply] at h
      cases h
    | true =>
      have hv : isValid m = true := by simp only [isValid, hval, hr]
      obtain ⟨fields, rfl, -⟩ := (isValid_iff m).1 hv
      rw [handleMessage_switch rt A _ _ s hv rfl] at h
      by_cases h1 : strictEqualsStr (lookupField "type" fields) "command" = true
      · rw [if_pos h1] at h
        rw [strictEqualsStr_iff] at h1
        rcases handleCommand_cases rt A (.obj fields) s with
          ⟨e', he', hrun⟩ | ⟨-, hrun⟩ | ⟨-, rid, -, hrun⟩
        · rw [hrun] at h
          cases h
          exact ⟨rfl, Or.inr (Or.inr (Or.inl ⟨hv, by simp only [getProp, h1], he'⟩))⟩
        · rw [hrun, sendError_apply] at h
          cases h
        · rw [hrun, sendResponse_apply] at h
          cases h
      · rw [if_neg h1] at h
        by_cases h2 : strictEqualsStr (lookupField "type" fields) "event" = true
        · rw [if_pos h2] at h
          rw [strictEqualsStr_iff] at h2
          rcases handleEvent_cases A (.obj fields) s with ⟨e', he', hrun⟩ | ⟨-, hrun⟩
          · rw [hrun] at h
            cases h
            exact ⟨rfl, Or.inr (Or.inr (Or.inr ⟨hv, by simp only [getProp, h2], he'⟩))⟩
          · rw [hrun, broadcast_apply] at h
            cases h
        · rw [if_neg h2] at h
          by_cases h3 : strictEqualsStr (lookupField "type" fields) "response" = true
          · rw [if_pos h3] at h
            cases h
          · rw [if_neg h3, sendError_apply] at h
            cases h

/-- C14. A frame decoding to a message whose handling throws inside `handleMessage` or one of
the handlers it calls: the throw is caught by the message handler, which returns normally
and is the call `sendError(A, 'Invalid message format', 1001)` made in the state the frame
arrived in, so the registry is unchanged and, with `A` open, exactly one envelope, of type
`error`, is sent, to `A`. A valid command envelope whose payload has no `command` record
and a valid event envelope whose payload has no `event` record are such messages. -/
theorem handler_failure_answered (rt : Runtime) (A : Conn) (s : Server) :
    (∀ (data : String) (m : JSVal) (e : JSError) (t : Server),
      rt.jsonParse data = some m → handleMessage rt A m s = (.error e, t) →
      onMessage rt A data s =
        sendError rt A (.str "Invalid message format") (.num (JSNum.ofNat 1001)) s ∧
      (onMessage rt A data s).1 = .ok () ∧
      (onMessage rt A data s).2.clients = s.clients ∧
      (s.readyState A = .OPEN →
        (onMessage rt A data s).2.sent =
          s.sent ++ [(A, errorEnvelope rt s.clock (.str "Invalid message format")
            (.num (JSNum.ofNat 1001)))])) ∧
    IsErrorEnvelope
      (errorEnvelope rt s.clock (.str "Invalid message format") (.num (JSNum.ofNat 1001)))
      1001 "Invalid message format" ∧
    (∀ m : JSVal, isValid m = true → getProp m "type" = .ok (.str "command") →
      (getPath m ["payload", "command"] = .ok .undefined ∨
        getPath m ["payload", "command"] = .ok .null) →
      handleMessage rt A m s = (.error .typeError, s)) ∧
    (∀ m : JSVal, isValid m = true → getProp m "type" = .ok (.str "event") →
      (getPath m ["payload", "event"] = .ok .undefined ∨
        getPath m ["payload", "event"] = .ok .null) →
      handleMessage rt A m s = (.error .typeError, s)) := by
  refine ⟨?_, isErrorEnvelope_errorEnvelope rt s.clock 1001 _, ?_, ?_⟩
  · intro data m e t hparse hthrow
    obtain ⟨rfl, -⟩ := handleMessage_throw_cases rt A m s t e hthrow
    have hrun : onMessage rt A data t =
        sendError rt A (.str "Invalid message format") (.num (JSNum.ofNat 1001)) t := by
      rw [onMessage_parsed rt A data m t hparse]
      exact tryCatch_error _ _ t t e hthrow
    refine ⟨hrun, (onMessage_frame rt A data t).1, (onMessage_frame rt A data t).2.1, ?_⟩
    intro hopen
    rw [hrun, sendError_open rt A _ _ t hopen]
  · intro m hv ht hmissing
    have hpath := getPath_name_of_undefined m "command" hmissing
    rw [handleMessage_switch rt A m _ s hv ht, if_pos (by decide)]
    rcases handleCommand_cases rt A m s with ⟨e, he, hrun⟩ | ⟨⟨n, hn, -⟩, -⟩ | ⟨hg, -⟩
    · rw [hpath] at he
      cases he
      exact hrun
    · rw [hpath] at hn
      cases hn
    · rw [hpath] at hg
      cases hg
  · intro m hv ht hmissing
    have hpath := getPath_name_of_undefined m "event" hmissing
    rw [handleMessage_switch rt A m _ s hv ht, if_neg (by decide), if_pos (by decide)]
    rcases handleEvent_cases A m s with ⟨e, he, hrun⟩ | ⟨⟨n, hn⟩, -⟩
    · rw [hpath] at he
      cases he
      exact hrun
    · rw [hpath] at hn
      cases hn

/-- Witness of C14: a valid command envelope without `command` record, from socket 1 with
sockets 2 and 3 registered: one error is sent, to socket 1. -/
theorem handler_failure_answered_witness :
    isValid noCommandMsg = true ∧
    handleMessage rt1 1 noCommandMsg s0 = (.error .typeError, s0) ∧
    (onMessage rt1 1 "frame" s0).2.sent =
      [(1, errorEnvelope rt1 0 (.str "Invalid message format") (.num (JSNum.ofNat 1001)))] ∧
    (onMessage rt1 1 "frame" s0).2.clients = [1, 2, 3] := by
  have h := handler_failure_answered rt1 1 s0
  have hthrow := h.2.2.1 noCommandMsg rfl rfl (Or.inl rfl)
  have hrun := h.1 "frame" noCommandMsg .typeError s0 rfl hthrow
  exact ⟨rfl, hthrow, by rw [hrun.2.2.2 rfl]; rfl, by rw [hrun.2.2.1]; rfl⟩

/-- C15, refuted as stated. A frame that decodes, and to a valid envelope (a command whose
payload has no `command` record), is answered with an error of code 1001. -/
theorem decoded_frame_answered_1001 :
    rt1.jsonParse "frame" = some noCommandMsg ∧ isValid noCommandMsg = true ∧
    (onMessage rt1 1 "frame" s1).2.sent =
      [(1, errorEnvelope rt1 0 (.str "Invalid message format") (.num (JSNum.ofNat 1001)))] ∧
    IsErrorEnvelope
      (errorEnvelope rt1 0 (.str "Invalid message format") (.num (JSNum.ofNat 1001)))
      1001 "Invalid message format" :=
  ⟨rfl, rfl, rfl, rfl, rfl, rfl⟩

/-- C15, amended. Whatever the state and the frame received from `A`: if an envelope of
type `error` with code 1001 is sent, then the frame failed to decode or the handling of the
decoded message threw, which happens only for `null` (and `undefined`) and for a valid
command or event whose `payload.command.name` or `payload.event.name` cannot be read. A
frame that decodes and is handled without a throw is never answered with 1001: the code of
an error sent for it is 1002, 1003 or 2001. -/
theorem code_1001_only_on_throw (rt : Runtime) (A : Conn) (data : String) (s : Server) :
    ∃ new : List (Conn × JSVal), (onMessage rt A data s).2.sent = s.sent ++ new ∧
      ((∃ p ∈ new, getProp p.2 "type" = .ok (.str "error") ∧
          getPath p.2 ["payload", "error", "code"] = .ok (.num (JSNum.ofNat 1001))) →
        rt.jsonParse data = none ∨
        ∃ m e, rt.jsonParse data = some m ∧ handleMessage rt A m s = (.error e, s) ∧
          (m = .null ∨ m = .undefined ∨
            (isValid m = true ∧ getProp m "type" = .ok (.str "command") ∧
              getPath m ["payload", "command", "name"] = .error e) ∨
            (isValid m = true ∧ getProp m "type" = .ok (.str "event") ∧
              getPath m ["payload", "event", "name"] = .error e))) ∧
      (∀ m, rt.jsonParse data = some m → (handleMessage rt A m s).1 = .ok () →
        ∀ p ∈ new, getProp p.2 "type" = .ok (.str "error") →
          ∃ code, (code = 1002 ∨ code = 1003 ∨ code = 2001) ∧
            getPath p.2 ["payload", "error", "code"] = .ok (.num (JSNum.ofNat code))) := by
  cases hparse : rt.jsonParse data with
  | none =>
    obtain ⟨-, -, -, new, hnew, -⟩ := onMessage_frame rt A data s
    exact ⟨new, hnew, fun _ => Or.inl rfl, fun m hm => by cases hm⟩
  | some m =>
    have hpar := onMessage_parsed rt A data m s hparse
    rcases handleMessage_outcome rt A m s with
      ⟨e, hrun⟩ | hrun | ⟨text, code, hcode, hrun⟩ | ⟨rid, hrun⟩ | ⟨hty, hrun⟩
    · obtain ⟨-, -, -, new, hnew, -⟩ := onMessage_frame rt A data s
      refine ⟨new, hnew, fun _ => Or.inr ⟨m, e, rfl, hrun,
        (handleMessage_throw_cases rt A m s s e hrun).2⟩, ?_⟩
      intro m' hm' hok
      cases hm'
      rw [hrun] at hok
      cases hok
    · refine ⟨[], by rw [hpar, tryCatch_ok _ _ s s () hrun]; simp, ?_, ?_⟩
      · rintro ⟨p, hp, -⟩
        cases hp
      · intro m' _ _ p hp
        cases hp
    · have hsent : (onMessage rt A data s).2.sent = s.sent ++
          (if s.readyState A = .OPEN then
            [(A, errorEnvelope rt s.clock (.str text) (.num (JSNum.ofNat code)))]
          else []) := by
        rw [hpar, tryCatch_of_ok _ _ s () (by rw [hrun, sendError_apply]), hrun,
          sendError_sent]
      refine ⟨_, hsent, ?_, ?_⟩
      · rintro ⟨p, hp, -, hc⟩
        split at hp
        · rw [List.mem_singleton] at hp
          subst hp
          have hcode' : code = 1001 := by
            simpa [errorEnvelope, getPath, getProp, lookupField, JSNum.ofNat] using hc
          subst hcode'
          rcases hcode with h | h | h <;> cases h
        · cases hp
      · intro m' _ _ p hp _
        split at hp
        · rw [List.mem_singleton] at hp
          subst hp
          exact ⟨code, hcode, rfl⟩
        · cases hp
    · have hsent : (onMessage rt A data s).2.sent = s.sent ++
          (if s.readyState A = .OPEN then
            [(A, responseEnvelope rt (s.clock + 2) (getDataResult rt s.clock))]
          else []) := by
        rw [hpar, tryCatch_of_ok _ _ s () (by rw [hrun, sendResponse_apply]), hrun,
          sendResponse_sent]
      have hnoerr : ∀ p ∈ (if s.readyState A = .OPEN then
            [(A, responseEnvelope rt (s.clock + 2) (getDataResult rt s.clock))]
          else []), getProp p.2 "type" ≠ .ok (.str "error") := by
        intro p hp
        split at hp
        · rw [List.mem_singleton] at hp
          subst hp
          simp [responseEnvelope, getProp, lookupField]
        · cases hp
      refine ⟨_, hsent, ?_, ?_⟩
      · rintro ⟨p, hp, hty, -⟩
        exact absurd hty (hnoerr p hp)
      · intro m' _ _ p hp hty
        exact absurd hty (hnoerr p hp)
    · have hsent : (onMessage rt A data s).2.sent = s.sent ++
          List.map (fun c => (c, m)) (recipients s (some A)) := by
        rw [hpar, tryCatch_of_ok _ _ s () (by rw [hrun, broadcast_apply]), hrun,
          broadcast_apply]
      have hnoerr : ∀ p ∈ List.map (fun c => (c, m)) (recipients s (some A)),
          getProp p.2 "type" ≠ .ok (.str "error") := by
        intro p hp
        obtain ⟨c, -, rfl⟩ := List.mem_map.1 hp
        rw [hty]
        simp
      refine ⟨_, hsent, ?_, ?_⟩
      · rintro ⟨p, hp, hty', -⟩
        exact absurd hty' (hnoerr p hp)
      · intro m' _ _ p hp hty'
        exact absurd hty' (hnoerr p hp)

/-! ## The text of an envelope and what is read back from it -/

theorem numberText_of_stable (n : JSNum) (h : n.jsonStable = true) :
    numberText n = .number n := by
  cases n with
  | finite neg mant exp =>
    cases neg <;> simp_all [JSNum.jsonStable, numberText]
  | infinite neg => simp [JSNum.jsonStable] at h
  | nan => simp [JSNum.jsonStable] at h

theorem setField_of_not_mem (key : String) (v : JSVal) (acc : List (String × JSVal))
    (h : ∀ p ∈ acc, p.1 ≠ key) : setField key v acc = acc ++ [(key, v)] := by
  induction acc with
  | nil => rfl
  | cons p acc ih =>
    obtain ⟨k, w⟩ := p
    have hk : k ≠ key := h (k, w) (List.mem_cons_self _ _)
    have ih' := ih (fun q hq => h q (List.mem_cons_of_mem _ hq))
    simp only [setField, if_neg hk, ih', List.cons_append]

mutual
/-- A value that JSON text can carry is read back from its text as it was. -/
theorem jsonRoundTrip_of_stable :
    ∀ v : JSVal, v.jsonStable = true → (jsonStringify v).map jsonParseText = some v
  | .undefined, h => by simp [JSVal.jsonStable] at h
  | .null, _ => rfl
  | .bool _, _ => rfl
  | .num n, h => by
    simp only [JSVal.jsonStable] at h
    simp only [jsonStringify, numberText_of_stable n h, Option.map_some', jsonParseText]
  | .str _, _ => rfl
  | .arr items, h => by
    simp only [JSVal.jsonStable] at h
    simp only [jsonStringify, Option.map_some', jsonParseText, parseItems_of_stable items h]
  | .obj fields, h => by
    simp only [JSVal.jsonStable] at h
    simp only [jsonStringify, Option.map_some', jsonParseText,
      parseMembers_of_stable fields [] h (by simp), List.nil_append]
theorem parseItems_of_stable :
    ∀ l : List JSVal, itemsStable l = true → parseItems (stringifyItems l) = l
  | [], _ => rfl
  | v :: rest, h => by
    simp only [itemsStable, Bool.and_eq_true] at h
    have hv := jsonRoundTrip_of_stable v h.1
    cases hs : jsonStringify v with
    | none => simp [hs] at hv
    | some t =>
      simp only [hs, Option.map_some', Option.some.injEq] at hv
      simp only [stringifyItems, parseItems, hs, hv, parseItems_of_stable rest h.2]
theorem parseMembers_of_stable :
    ∀ (l : List (String × JSVal)) (acc : List (String × JSVal)), fieldsStable l = true →
      (∀ p ∈ l, ∀ q ∈ acc, q.1 ≠ p.1) →
      parseMembers (stringifyFields l) acc = acc ++ l
  | [], acc, _, _ => by simp [stringifyFields, parseMembers]
  | (k, v) :: rest, acc, h, hd => by
    simp only [fieldsStable, Bool.and_eq_true, Bool.not_eq_true', List.any_eq_false,
      beq_iff_eq] at h
    obtain ⟨⟨hv, hk⟩, hrest⟩ := h
    have hrt := jsonRoundTrip_of_stable v hv
    cases hs : jsonStringify v with
    | none => simp [hs] at hrt
    | some t =>
      simp only [hs, Option.map_some', Option.some.injEq] at hrt
      have hset : setField k (jsonParseText t) acc = acc ++ [(k, v)] := by
        rw [hrt]
        exact setField_of_not_mem k v acc
          (fun q hq => hd (k, v) (List.mem_cons_self _ _) q hq)
      have ih := parseMembers_of_stable rest (acc ++ [(k, v)]) hrest (by
        intro p hp q hq
        rcases List.mem_append.1 hq with hq | hq
        · exact hd p (List.mem_cons_of_mem _ hp) q hq
        · rw [List.mem_singleton] at hq
          rw [hq]
          exact fun heq => hk p hp heq.symm)
      simp only [stringifyFields, hs, parseMembers, hset, ih, List.append_assoc,
        List.singleton_append]
end

theorem ofInt_jsonStable (i : Int) : (JSNum.ofInt i).jsonStable = true := by
  simp only [JSNum.ofInt, JSNum.jsonStable, Bool.not_eq_true', Bool.and_eq_false_imp,
    decide_eq_true_eq, beq_eq_false_iff_ne, ne_eq, Int.natAbs_eq_zero]
  omega

theorem ofNat_jsonStable (n : Nat) : (JSNum.ofNat n).jsonStable = true := rfl

theorem envelope_jsonStable (t id : String) (timestamp : Int) (key : String)
    (record : List (String × JSVal)) (h : fieldsStable record = true) :
    (JSVal.obj [("type", .str t), ("id", .str id),
      ("timestamp", .num (JSNum.ofInt timestamp)),
      ("payload", .obj [(key, .obj record)])]).jsonStable = true := by
  simp [JSVal.jsonStable, fieldsStable, ofInt_jsonStable, h]

/-! ## Round trip of the codec -/

/-- C16, refuted as stated. The envelope `overflowMsg` is what `JSON.parse` reads from a
frame whose timestamp is written `1e999`; it is valid, and handled from socket 1 it is
encoded for sockets 2 and 3. The text `JSON.stringify` writes for it has the timestamp
`null`, so what is read back from that text is not the envelope that was encoded. -/
theorem overflow_envelope_not_round_tripped :
    jsonParseText overflowText = overflowMsg ∧ isValid overflowMsg = true ∧
    (handleMessage rt3 1 overflowMsg sOpen).2.sent = [(2, overflowMsg), (3, overflowMsg)] ∧
    jsonStringify overflowMsg =
      some (.object [("type", .string "event"), ("id", .string "e-9"),
        ("timestamp", .null),
        ("payload", .object [("event", .object [("name", .string "ping")])])]) ∧
    jsonRoundTrip overflowMsg = some overflowDelivered ∧
    jsonRoundTrip overflowMsg ≠ some overflowMsg := by
  refine ⟨rfl, rfl, rfl, rfl, rfl, ?_⟩
  have h : jsonRoundTrip overflowMsg = some overflowDelivered := rfl
  rw [h]
  simp [overflowDelivered, overflowMsg]

/-- C16, amended. An envelope `e` that holds only values JSON text can carry (no
`undefined`, numbers finite and not the negative zero, distinct property names, as
`JSVal.jsonStable` says) is read back by `JSON.parse` from the text `JSON.stringify` writes
for it as `e` itself. The envelopes built by `sendError` with a string and a number literal,
by `sendEvent` and `sendResponse` with a string name and such data, and the welcome of the
connection handler are of that kind, and so is the result of `getData` when the two
products of `Math.random()` are finite and not the negative zero. -/
theorem stable_envelope_round_trip (rt : Runtime) (clock : Nat) (e : JSVal) :
    (e.jsonStable = true → jsonRoundTrip e = some e) ∧
    (∀ (text : String) (code : Nat),
      jsonRoundTrip (errorEnvelope rt clock (.str text) (.num (JSNum.ofNat code))) =
        some (errorEnvelope rt clock (.str text) (.num (JSNum.ofNat code)))) ∧
    (∀ (name : String) (data : JSVal), data.jsonStable = true →
      jsonRoundTrip (eventEnvelope rt clock (.str name) data) =
        some (eventEnvelope rt clock (.str name) data)) ∧
    jsonRoundTrip (welcomeEnvelope rt clock) = some (welcomeEnvelope rt clock) ∧
    (∀ data : JSVal, data.jsonStable = true →
      jsonRoundTrip (responseEnvelope rt clock data) = some (responseEnvelope rt clock data)) ∧
    ((rt.mul (rt.mathRandom clock) (JSNum.ofNat 30)).jsonStable = true →
      (rt.mul (rt.mathRandom (clock + 1)) (JSNum.ofNat 100)).jsonStable = true →
      (getDataResult rt clock).jsonStable = true) := by
  refine ⟨jsonRoundTrip_of_stable e, ?_, ?_, ?_, ?_, ?_⟩
  · intro text code
    exact jsonRoundTrip_of_stable _ (envelope_jsonStable _ _ _ _ _
      (by simp [fieldsStable, JSVal.jsonStable, ofNat_jsonStable]))
  · intro name data hdata
    exact jsonRoundTrip_of_stable _ (envelope_jsonStable _ _ _ _ _
      (by simp [fieldsStable, JSVal.jsonStable, hdata]))
  · exact jsonRoundTrip_of_stable _ (envelope_jsonStable _ _ _ _ _
      (by simp [fieldsStable, JSVal.jsonStable, ofInt_jsonStable]))
  · intro data hdata
    exact jsonRoundTrip_of_stable _ (envelope_jsonStable _ _ _ _ _
      (by simp [fieldsStable, JSVal.jsonStable, hdata]))
  · intro h1 h2
    simp [getDataResult, fieldsStable, JSVal.jsonStable, h1, h2]

/-- Witness of the amended C16: the event envelope with timestamp 5 and the error envelope
of an unknown command are read back as they were. -/
theorem stable_envelope_round_trip_witness :
    eventMsg.jsonStable = true ∧ jsonRoundTrip eventMsg = some eventMsg ∧
    jsonRoundTrip (errorEnvelope rt0 0 (.str "Unknown command") (.num (JSNum.ofNat 2001))) =
      some (errorEnvelope rt0 0 (.str "Unknown command") (.num (JSNum.ofNat 2001))) :=
  ⟨rfl, (stable_envelope_round_trip rt0 0 eventMsg).1 rfl,
   (stable_envelope_round_trip rt0 0 eventMsg).2.1 "Unknown command" 2001⟩

/-! ## Events are forwarded as received -/

/-- C19, refuted as stated. The valid event `overflowMsg`, read from a frame whose timestamp
is written `1e999`, arrives from socket 1 with sockets 2 and 3 open: what is sent to them is
the text of `overflowMsg`, and the envelope read from that text has the timestamp `null`,
not the timestamp `Infinity` that was received. -/
theorem overflow_event_delivered_changed :
    rt3.jsonParse "frame" = some overflowMsg ∧ isValid overflowMsg = true ∧
    getProp overflowMsg "type" = .ok (.str "event") ∧
    (onMessage rt3 1 "frame" sOpen).2.wire =
      [(2, jsonStringify overflowMsg), (3, jsonStringify overflowMsg)] ∧
    jsonRoundTrip overflowMsg = some overflowDelivered ∧
    getProp overflowMsg "timestamp" = .ok (.num (.infinite false)) ∧
    getProp overflowDelivered "timestamp" = .ok .null ∧
    getProp overflowDelivered "timestamp" ≠ getProp overflowMsg "timestamp" := by
  refine ⟨rfl, rfl, rfl, rfl, rfl, rfl, rfl, ?_⟩
  simp [overflowDelivered, overflowMsg, getProp, lookupField]

/-- C19, amended. A valid envelope `m` of type `event` received from socket `A`: every
value that `handleMessage` hands to `JSON.stringify` is `m` itself, neither re-stamped nor
wrapped, for a socket other than `A`, and the texts sent are the text of `m`; when
`payload.event.name` can be read these sends are one to each registered open socket other
than `A`. When `m` holds only values JSON text can carry (its numbers finite and not the
negative zero), the envelope read from the text delivered is `m`: same type, id, timestamp
and payload as received. The same holds of what the message handler sends to the sockets
other than `A` for a frame decoding to `m`. -/
theorem event_forwarded_unchanged (rt : Runtime) (A : Conn) (m : JSVal) (s : Server)
    (hvalid : isValid m = true) (htype : getProp m "type" = .ok (.str "event")) :
    (∃ new : List (Conn × JSVal), (handleMessage rt A m s).2.sent = s.sent ++ new ∧
      (∀ p ∈ new, p.2 = m ∧ p.1 ≠ A) ∧
      (handleMessage rt A m s).2.wire =
        s.wire ++ new.map (fun p => (p.1, jsonStringify m)) ∧
      ((∃ n, getPath m ["payload", "event", "name"] = .ok n) →
        new = (s.clients.filter (fun c => c ≠ A ∧ s.readyState c = .OPEN)).map
          (fun c => (c, m))) ∧
      (m.jsonStable = true → ∀ p ∈ new, jsonRoundTrip p.2 = some m ∧
        ∀ d, jsonRoundTrip p.2 = some d →
          getProp d "type" = getProp m "type" ∧ getProp d "id" = getProp m "id" ∧
          getProp d "timestamp" = getProp m "timestamp" ∧
          getProp d "payload" = getProp m "payload")) ∧
    (∀ data, rt.jsonParse data = some m →
      ∃ new : List (Conn × JSVal), (onMessage rt A data s).2.sent = s.sent ++ new ∧
        ∀ p ∈ new, p.1 ≠ A →
          p.2 = m ∧ (m.jsonStable = true → jsonRoundTrip p.2 = some m)) := by
  have hrec : recipients s (some A) =
      s.clients.filter (fun c => c ≠ A ∧ s.readyState c = .OPEN) := by
    simp [recipients]
  have hmem : ∀ p ∈ List.map (fun c => (c, m)) (recipients s (some A)),
      p.2 = m ∧ p.1 ≠ A := by
    intro p hp
    obtain ⟨c, hc, rfl⟩ := List.mem_map.1 hp
    simp only [recipients, List.mem_filter, decide_eq_true_eq] at hc
    exact ⟨rfl, fun h => hc.2.1 (congrArg some h)⟩
  have hsw : handleMessage rt A m s = handleEvent A m s := by
    rw [handleMessage_switch rt A m _ s hvalid htype, if_neg (by decide), if_pos (by decide)]
  have hstable : m.jsonStable = true → ∀ p : Conn × JSVal, p.2 = m →
      jsonRoundTrip p.2 = some m ∧
      ∀ d, jsonRoundTrip p.2 = some d →
        getProp d "type" = getProp m "type" ∧ getProp d "id" = getProp m "id" ∧
        getProp d "timestamp" = getProp m "timestamp" ∧
        getProp d "payload" = getProp m "payload" := by
    intro hst p hp
    have hrt : jsonRoundTrip p.2 = some m := by
      rw [hp]
      exact jsonRoundTrip_of_stable m hst
    refine ⟨hrt, ?_⟩
    intro d hd
    rw [hrt, Option.some.injEq] at hd
    subst hd
    exact ⟨rfl, rfl, rfl, rfl⟩
  refine ⟨?_, ?_⟩
  · rcases handleEvent_cases A m s with ⟨e, he, hrun⟩ | ⟨-, hrun⟩
    · refine ⟨[], by rw [hsw, hrun]; simp, by simp, by rw [hsw, hrun]; simp, ?_, by simp⟩
      rintro ⟨n, hn⟩
      rw [hn] at he
      cases he
    · refine ⟨_, by rw [hsw, hrun, broadcast_apply], hmem, ?_, fun _ => by rw [hrec],
        fun hst p hp => hstable hst p (hmem p hp).1⟩
      rw [hsw, hrun, broadcast_apply]
      simp [Server.wire, List.map_map, Function.comp_def]
  · intro data hparse
    rw [onMessage_parsed rt A data m s hparse]
    rcases handleEvent_cases A m s with ⟨e, he, hrun⟩ | ⟨-, hrun⟩
    · rw [tryCatch_error _ _ s s e (by rw [hsw, hrun])]
      refine ⟨_, sendError_sent rt A _ _ s, ?_⟩
      intro p hp hne
      split at hp
      · rw [List.mem_singleton] at hp
        rw [hp] at hne
        exact absurd rfl hne
      · cases hp
    · rw [tryCatch_of_ok _ _ s () (by rw [hsw, hrun, broadcast_apply]), hsw, hrun,
        broadcast_apply]
      exact ⟨_, rfl, fun p hp _ =>
        ⟨(hmem p hp).1, fun hst => (hstable hst p (hmem p hp).1).1⟩⟩

/-- Witness of the amended C19: the event of socket 1 is sent to socket 2, and what is read
from the text sent is the event as it was received. -/
theorem event_forwarded_unchanged_witness :
    isValid eventMsg = true ∧ eventMsg.jsonStable = true ∧
    (handleMessage rt0 1 eventMsg s0).2.sent = [(2, eventMsg)] ∧
    jsonRoundTrip eventMsg = some eventMsg := by
  obtain ⟨new, h1, -, -, h3, h4⟩ := (event_forwarded_unchanged rt0 1 eventMsg s0 rfl rfl).1
  have hnew := h3 ⟨_, rfl⟩
  refine ⟨rfl, rfl, by rw [h1, hnew]; rfl, ?_⟩
  exact (h4 rfl (2, eventMsg) (by rw [hnew]; simp [s0])).1

end WebSocketDemo
